import Mathlib

/-! # Triage state model of the dental-coding client

A shallow embedding of the page-level state and handlers of
`src/components/Pages/Home.jsx` together with the HTTP wrappers of
`src/interceptors/services.js`.

Conventions of the embedding.

* A JavaScript value that may be `null`/`undefined` is an `Option`.
* A JavaScript object used as a dictionary (`subtopics_data`) is an association
  list in key order; `Object.keys(o).forEach(k => ... o[k] ...)` visits its
  entries in that order.
* An `await`ed request is a call of an oracle (`Backend`) that either returns the
  response body or fails with the error the HTTP library raised.
* React state is a record (`HomeState`); a handler is a function from the state
  before the event to the state after all its updates have been applied.
-/

namespace TriageStore

/-! ## Selection state -/

/-- The `selectedCodes` state of `Home` (Home.jsx, line 11). -/
structure SelectedCodes where
  accepted : List String
  denied : List String
deriving DecidableEq

/-- The initial value `{ accepted: [], denied: [] }`. -/
def SelectedCodes.empty : SelectedCodes := { accepted := [], denied := [] }

/-- The updater of `handleCodeSelection` (Home.jsx, lines 66-83): the code is
filtered out of both lists and then pushed on the list the action names. -/
def handleCodeSelection (prev : SelectedCodes) (code action : String) : SelectedCodes :=
  let accepted := prev.accepted.filter (fun c => c != code)
  let denied := prev.denied.filter (fun c => c != code)
  if action = "accept" then
    { accepted := accepted ++ [code], denied := denied }
  else if action = "deny" then
    { accepted := accepted, denied := denied ++ [code] }
  else
    { accepted := accepted, denied := denied }

/-! ## Analysis result -/

/-- One element of `specific_codes`. The key `isApplicable` exists only on
entries added by `handleAddCode`; `none` is an absent key and `some b` a present
key whose value has truthiness `b` (only its truthiness is ever read). -/
structure CodeEntry where
  code : Option String
  explanation : Option String
  doubt : Option String
  isApplicable : Option Bool
deriving DecidableEq

/-- The value of one key of `subtopics_data`. -/
structure TopicData where
  topic_name : Option String
  activated_subtopics : Option (List String)
  specific_codes : Option (List (Option CodeEntry))
deriving DecidableEq

/-- The summary `inspector_results` of a response. -/
structure InspectorResults where
  codes : List String
  explanation : Option String
deriving DecidableEq

/-- The `data` object of an analyze response. -/
structure ResultData where
  record_id : Option String
  subtopics_data : Option (List (String × TopicData))
  inspector_results : Option InspectorResults
  cdt_questions : Option (List String)
  icd_questions : Option (List String)
deriving DecidableEq

/-- The body of an analyze or answer-questions response, the value kept in the
`result` state. -/
structure AnalysisResponse where
  status : Option String
  message : Option String
  data : Option ResultData
deriving DecidableEq

/-- The expression `result?.data?.subtopics_data`. -/
def subtopicsData (result : Option AnalysisResponse) : Option (List (String × TopicData)) :=
  match result with
  | none => none
  | some r =>
    match r.data with
    | none => none
    | some d => d.subtopics_data

/-- The expression `result?.data?.record_id`. -/
def recordId (result : Option AnalysisResponse) : Option String :=
  match result with
  | none => none
  | some r =>
    match r.data with
    | none => none
    | some d => d.record_id

/-! ## Completion gate and remaining count -/

/-- The body of the inner `forEach` of `areAllCodesSelected` (Home.jsx, lines
384-393): one `codeData` of topic `topic`, with `allCodes` threaded through. -/
def pushIfCounted (topic : String) (allCodes : List String) (codeData : Option CodeEntry) :
    List String :=
  match codeData with
  | none => allCodes
  | some cd =>
    match cd.code with
    | none => allCodes
    | some code =>
      if code ≠ "" ∧ code ≠ "none" then
        match cd.isApplicable with
        | some b => if topic = "custom_codes" ∧ b = false then allCodes else allCodes ++ [code]
        | none => allCodes ++ [code]
      else allCodes

/-- The body of the outer `forEach` of `areAllCodesSelected` (lines 381-395). -/
def collectTopic (allCodes : List String) (entry : String × TopicData) : List String :=
  match entry.2.specific_codes with
  | none => allCodes
  | some codes => codes.foldl (pushIfCounted entry.1) allCodes

/-- The function `areAllCodesSelected` (Home.jsx, lines 375-399). -/
def areAllCodesSelected (result : Option AnalysisResponse) (selectedCodes : SelectedCodes) :
    Bool :=
  match subtopicsData result with
  | none => false
  | some sd =>
    let allCodes := sd.foldl collectTopic []
    decide (allCodes.length > 0) && allCodes.all (fun code => selectedCodes.accepted.contains code)

/-- The body of the inner `forEach` of `getRemainingCodeCount` (lines 412-423);
the pair is `(totalCodes, acceptedCount)`. -/
def countIfCounted (selectedCodes : SelectedCodes) (topic : String) (counts : Nat × Nat)
    (codeData : Option CodeEntry) : Nat × Nat :=
  match codeData with
  | none => counts
  | some cd =>
    match cd.code with
    | none => counts
    | some code =>
      if code ≠ "" ∧ code ≠ "none" then
        match cd.isApplicable with
        | some b =>
          if topic = "custom_codes" ∧ b = false then counts
          else if selectedCodes.accepted.contains code then (counts.1 + 1, counts.2 + 1)
          else (counts.1 + 1, counts.2)
        | none =>
          if selectedCodes.accepted.contains code then (counts.1 + 1, counts.2 + 1)
          else (counts.1 + 1, counts.2)
      else counts

/-- The body of the outer `forEach` of `getRemainingCodeCount` (lines 409-425). -/
def countTopic (selectedCodes : SelectedCodes) (counts : Nat × Nat)
    (entry : String × TopicData) : Nat × Nat :=
  match entry.2.specific_codes with
  | none => counts
  | some codes => codes.foldl (countIfCounted selectedCodes entry.1) counts

/-- The function `getRemainingCodeCount` (Home.jsx, lines 401-428). -/
def getRemainingCodeCount (result : Option AnalysisResponse) (selectedCodes : SelectedCodes) :
    Int :=
  match subtopicsData result with
  | none => 0
  | some sd =>
    let counts := sd.foldl (countTopic selectedCodes) (0, 0)
    (counts.1 : Int) - (counts.2 : Int)

/-! ## The tracked entries, as the specification words them -/

/-- A real code: present, non-empty and not the sentinel `"none"`. -/
def Spec.hasRealCode (e : CodeEntry) : Bool :=
  match e.code with
  | some c => c != "" && c != "none"
  | none => false

/-- A non-applicable user-added code: an entry of the `custom_codes` topic that
carries an applicability flag and whose flag is false. -/
def Spec.isNonApplicableCustom (topic : String) (e : CodeEntry) : Bool :=
  topic == "custom_codes" && e.isApplicable == some false

/-- The entries the completion rule ranges over. -/
def Spec.isTracked (topic : String) (e : CodeEntry) : Bool :=
  Spec.hasRealCode e && !Spec.isNonApplicableCustom topic e

/-- Every code entry of every topic of a result, with the key of its topic. -/
def Spec.codeEntries (result : Option AnalysisResponse) : List (String × CodeEntry) :=
  match subtopicsData result with
  | none => []
  | some sd =>
    sd.flatMap (fun p => ((p.2.specific_codes.getD []).filterMap id).map (fun e => (p.1, e)))

/-- An entry whose code is in `accepted`. -/
def Spec.isAccepted (selectedCodes : SelectedCodes) (e : CodeEntry) : Bool :=
  match e.code with
  | some c => decide (c ∈ selectedCodes.accepted)
  | none => false

/-! ## String primitives of the host language -/

/-- The operator `a || b` on two strings of which the first may be missing: the
first when it is present and non-empty, the second otherwise. -/
def orElse (a : Option String) (b : String) : String :=
  match a with
  | some x => if x ≠ "" then x else b
  | none => b

/-- Line terminators: LF, CR, LS and PS. -/
def isLineTerminator (c : Char) : Bool :=
  c.toNat == 0x0A || c.toNat == 0x0D || c.toNat == 0x2028 || c.toNat == 0x2029

/-- What `String.prototype.trim` strips: white space and line terminators. -/
def isTrimmed (c : Char) : Bool :=
  isLineTerminator c || c.toNat == 0x09 || c.toNat == 0x0B || c.toNat == 0x0C ||
  c.toNat == 0x20 || c.toNat == 0xA0 || c.toNat == 0x1680 ||
  (0x2000 ≤ c.toNat && c.toNat ≤ 0x200A) ||
  c.toNat == 0x202F || c.toNat == 0x205F || c.toNat == 0x3000 || c.toNat == 0xFEFF

/-- The method `trim` on the characters of a string. -/
def trimChars (cs : List Char) : List Char :=
  ((cs.dropWhile isTrimmed).reverse.dropWhile isTrimmed).reverse

/-- The method `String.prototype.trim`. -/
def trim (s : String) : String := String.mk (trimChars s.data)

/-- Whether `pat` occurs at the very start of `cs`. -/
def startsWithChars : List Char → List Char → Bool
  | _, [] => true
  | [], _ :: _ => false
  | c :: cs, p :: ps => c == p && startsWithChars cs ps

/-- The method `includes` on the characters of a string: `pat` occurs somewhere
in `cs`. -/
def includesChars : List Char → List Char → Bool
  | [], pat => startsWithChars [] pat
  | c :: cs, pat => startsWithChars (c :: cs) pat || includesChars cs pat

/-- The method `String.prototype.includes`. -/
def includes (s pat : String) : Bool := includesChars s.data pat.data

/-- The text searched for the applicability verdict (Home.jsx, line 505). -/
def applicableMarker : String := "**Applicable?** Yes"

/-- The literal head of the regular expression of line 510, `\*\*Reason\*\*: `. -/
def reasonMarker : String := "**Reason**: "

/-- The tail `(.*?)($|\n)` of the regular expression, matched at the start of
`cs`: the lazy group takes characters, none of them a line terminator, up to the
first place that is the end of the input or a line feed. The result is the text
of the first group, `none` when the tail does not match here. -/
def lazyLine : List Char → Option (List Char)
  | [] => some []
  | c :: cs =>
    if c.toNat == 0x0A then some []
    else if isLineTerminator c then none
    else (lazyLine cs).map (fun g => c :: g)

/-- The whole regular expression tried at the start of `cs`. -/
def matchReasonAt (cs : List Char) : Option (List Char) :=
  if startsWithChars cs reasonMarker.data then lazyLine (cs.drop reasonMarker.data.length)
  else none

/-- The call `s.match(/\*\*Reason\*\*: (.*?)($|\n)/)` on the characters of `s`:
the first group of the leftmost match, `none` when there is no match. -/
def reasonMatchChars : List Char → Option (List Char)
  | [] => matchReasonAt []
  | c :: cs =>
    match matchReasonAt (c :: cs) with
    | some g => some g
    | none => reasonMatchChars cs

/-- The first group of `explanation.match(/\*\*Reason\*\*: (.*?)($|\n)/)`. -/
def reasonMatch (explanation : String) : Option String :=
  (reasonMatchChars explanation.data).map String.mk

/-! ## Dictionaries -/

/-- The property read `o[k]`. -/
def objGet {α : Type} : List (String × α) → String → Option α
  | [], _ => none
  | (k, v) :: rest, key => if k = key then some v else objGet rest key

/-- The assignment `o[k] = v`: an existing key keeps its place, a new key goes
last. -/
def objSet {α : Type} : List (String × α) → String → α → List (String × α)
  | [], key, v => [(key, v)]
  | (k, w) :: rest, key, v =>
    if k = key then (k, v) :: rest else (k, w) :: objSet rest key v

/-! ## HTTP wrappers (services.js) -/

/-- The value a `catch` block of the page receives; only `message` is read, and
`none` stands for a value without that field. -/
structure Thrown where
  message : Option String
deriving DecidableEq

/-- The error the HTTP library raises. `response` is `error.response?.data`:
`none` when there is no response, `some none` when the response has no body or a
falsy one. `message` is `error.message`. -/
structure AxiosError where
  response : Option (Option Thrown)
  message : Option String
deriving DecidableEq

/-- The expression `error.response?.data || { message: fallback }`. -/
def rethrow (error : AxiosError) (fallback : String) : Thrown :=
  match error.response with
  | some (some body) => body
  | _ => { message := some fallback }

/-- The `code_data` of an add-custom-code response. -/
structure CodeData where
  code : String
  explanation : Option String
  doubt : Option String
deriving DecidableEq

/-- The `data` of an add-custom-code response. -/
structure AddCodeData where
  code_data : Option CodeData
deriving DecidableEq

/-- The body of an add-custom-code response. -/
structure AddCodeResponse where
  data : Option AddCodeData
deriving DecidableEq

/-- The outside world of one handler run: what `apiInstance.post` answers on each
endpoint, and the message of the `TypeError` the engine raises on a property
access on `null` or `undefined`. -/
structure Env where
  postAnalyze : String → Except AxiosError AnalysisResponse
  postStoreCodeStatus : SelectedCodes → Option String → Except AxiosError Unit
  postAnswerQuestions : String → List (String × String) → Except AxiosError AnalysisResponse
  postAddCustomCode : String → String → String → Except AxiosError AddCodeResponse
  typeErrorMessage : String

/-- The service `analyzeDentalScenario` (services.js, lines 4-11). -/
def analyzeDentalScenario (env : Env) (scenario : String) : Except Thrown AnalysisResponse :=
  match env.postAnalyze scenario with
  | .ok body => .ok body
  | .error error => .error (rethrow error "Failed to analyze scenario")

/-- The service `submitSelectedCodes` (services.js, lines 14-24). -/
def submitSelectedCodes (env : Env) (selectedCodes : SelectedCodes) (recordId : Option String) :
    Except Thrown Unit :=
  match env.postStoreCodeStatus selectedCodes recordId with
  | .ok body => .ok body
  | .error error => .error (rethrow error "Failed to submit selected codes")

/-- The service `submitQuestionAnswers` (services.js, lines 27-42). -/
def submitQuestionAnswers (env : Env) (answers : List (String × String)) (recordId : String) :
    Except Thrown AnalysisResponse :=
  match env.postAnswerQuestions recordId answers with
  | .ok body => .ok body
  | .error error =>
    .error (rethrow error ("Failed to submit answers: " ++ orElse error.message "Unknown error"))

/-- The service `addCustomCode` (services.js, lines 45-56). -/
def addCustomCode (env : Env) (code scenario recordId : String) :
    Except Thrown AddCodeResponse :=
  match env.postAddCustomCode code scenario recordId with
  | .ok body => .ok body
  | .error error => .error (rethrow error "Failed to add custom code")

/-! ## Base URL (axios.jsx) -/

/-- The function `getBaseUrl` (axios.jsx, lines 3-15). `hostname` is
`window.location.hostname`, `none` where there is no `window`; `viteApiUrl` is
`import.meta.env.VITE_API_URL`, `none` when it is not set. -/
def getBaseUrl (hostname : Option String) (viteApiUrl : Option String) : String :=
  match hostname with
  | some h =>
    if h = "automed.adamtechnologies.in" then "https://python.adamtechnologies.in"
    else orElse viteApiUrl "http://localhost:8000"
  | none => orElse viteApiUrl "http://localhost:8000"

/-! ## Page state and handlers (Home.jsx) -/

/-- The state of `Home` (Home.jsx, lines 7-15). The states `showQuestioner` and
`expandedTopics` only select what is drawn and are read by none of the handlers
below; they are left out. -/
structure HomeState where
  scenario : String
  loading : Bool
  result : Option AnalysisResponse
  error : Option String
  selectedCodes : SelectedCodes
  submitting : Bool
  newCode : String
deriving DecidableEq

/-- The state of a freshly mounted page. -/
def HomeState.initial : HomeState :=
  { scenario := "", loading := false, result := none, error := none,
    selectedCodes := SelectedCodes.empty, submitting := false, newCode := "" }

/-- The handler `handleSubmit` (Home.jsx, lines 39-57): the analyze action. -/
def handleSubmit (env : Env) (s : HomeState) : HomeState :=
  let s1 := { s with loading := true, error := none, result := none,
                     selectedCodes := { accepted := [], denied := [] } }
  match analyzeDentalScenario env s.scenario with
  | .ok response => { s1 with result := some response, loading := false }
  | .error err =>
    { s1 with error := some (orElse err.message "An error occurred while analyzing the scenario"),
              loading := false }

/-- The handler `handleSubmitCodes` (Home.jsx, lines 85-98): final submission.
Reading `result.data.record_id` off a missing `result` or `data` raises inside
the `try` block. -/
def handleSubmitCodes (env : Env) (s : HomeState) : HomeState :=
  let s1 := { s with submitting := true }
  let outcome : Except Thrown Unit :=
    match s.result with
    | none => .error { message := some env.typeErrorMessage }
    | some r =>
      match r.data with
      | none => .error { message := some env.typeErrorMessage }
      | some d => submitSelectedCodes env s.selectedCodes d.record_id
  match outcome with
  | .ok _ =>
    { s1 with scenario := "", result := none,
              selectedCodes := { accepted := [], denied := [] }, submitting := false }
  | .error err =>
    { s1 with error := some (orElse err.message "Failed to submit selected codes"),
              submitting := false }

/-- The handler `handleQuestionerSuccess` (Home.jsx, lines 104-113). -/
def handleQuestionerSuccess (s : HomeState) (response : Option AnalysisResponse) : HomeState :=
  match response with
  | none => s
  | some r =>
    if r.status = some "success" then { s with result := some r }
    else if r.status = some "error" then
      { s with error := some (orElse r.message "Failed to process answers") }
    else s

/-- The constant `isApplicable` of `handleAddCode` (Home.jsx, line 505), by its
truthiness: `codeData.explanation && codeData.explanation.includes(...)`. -/
def isApplicableOf (codeData : CodeData) : Bool :=
  match codeData.explanation with
  | some e => decide (e ≠ "") && includes e applicableMarker
  | none => false

/-- The variable `reason` of `handleAddCode` (Home.jsx, lines 508-512). -/
def reasonOf (codeData : CodeData) : String :=
  match codeData.explanation with
  | some e =>
    if e ≠ "" then
      match reasonMatch e with
      | some g => trim g
      | none => ""
    else ""
  | none => ""

/-- The entry `handleAddCode` pushes (Home.jsx, lines 523-528). -/
def customEntry (codeData : CodeData) : CodeEntry :=
  { code := some codeData.code,
    explanation := if reasonOf codeData ≠ "" then some (reasonOf codeData)
                   else codeData.explanation,
    doubt := some (orElse codeData.doubt "None"),
    isApplicable := some (isApplicableOf codeData) }

/-- Lines 500-528 of `handleAddCode` on `subtopics_data`: an absent dictionary
becomes empty, an absent `custom_codes` topic is created, and the entry is
pushed on the topic's `specific_codes`. `none` is the `TypeError` of `push` on a
missing `specific_codes`. -/
def pushCustomCode (subtopics : Option (List (String × TopicData))) (entry : CodeEntry) :
    Option (List (String × TopicData)) :=
  let sd0 := match subtopics with
    | some sd => sd
    | none => []
  let sd1 := match objGet sd0 "custom_codes" with
    | some _ => sd0
    | none =>
      objSet sd0 "custom_codes"
        { topic_name := some "Custom Added Codes", activated_subtopics := none,
          specific_codes := some [] }
  match objGet sd1 "custom_codes" with
  | none => none
  | some topic =>
    match topic.specific_codes with
    | none => none
    | some codes =>
      some (objSet sd1 "custom_codes" { topic with specific_codes := some (codes ++ [some entry]) })

/-- Lines 530-538 of `handleAddCode` on `inspector_results`. -/
def pushInspectorCode (inspector : Option InspectorResults) (isApplicable : Bool)
    (code : String) : Option InspectorResults :=
  match inspector with
  | none => none
  | some ir =>
    if isApplicable then
      if ir.codes.contains code then some ir else some { ir with codes := ir.codes ++ [code] }
    else some ir

/-- The handler `handleAddCode` (Home.jsx, lines 474-565): the custom-code
action. -/
def handleAddCode (env : Env) (s : HomeState) : HomeState :=
  if trim s.newCode = "" then
    { s with error := some "Please enter a valid code" }
  else
    match s.result with
    | none =>
      { s with error := some "No active analysis session. Please analyze a scenario first." }
    | some r =>
      match r.data with
      | none =>
        { s with error := some "No active analysis session. Please analyze a scenario first." }
      | some d =>
        match d.record_id with
        | none =>
          { s with error := some "No active analysis session. Please analyze a scenario first." }
        | some rid =>
          if rid = "" then
            { s with
              error := some "No active analysis session. Please analyze a scenario first." }
          else
            let s1 := { s with loading := true, error := none }
            match addCustomCode env s.newCode s.scenario rid with
            | .error err =>
              { s1 with error := some (orElse err.message "Failed to add custom code"),
                        loading := false }
            | .ok response =>
              match response.data with
              | none =>
                { s1 with error := some "Received invalid response format from server",
                          loading := false }
              | some rd =>
                match rd.code_data with
                | none =>
                  { s1 with error := some "Received invalid response format from server",
                            loading := false }
                | some codeData =>
                  let isApplicable := isApplicableOf codeData
                  match pushCustomCode d.subtopics_data (customEntry codeData) with
                  | none =>
                    { s1 with error := some (orElse (some env.typeErrorMessage)
                                "Failed to add custom code"),
                              loading := false }
                  | some sd =>
                    let updatedResult : AnalysisResponse :=
                      { r with data := some { d with
                          subtopics_data := some sd,
                          inspector_results :=
                            pushInspectorCode d.inspector_results isApplicable codeData.code } }
                    { s1 with result := some updatedResult, newCode := "",
                              selectedCodes :=
                                if isApplicable then
                                  handleCodeSelection s1.selectedCodes codeData.code "accept"
                                else s1.selectedCodes,
                              loading := false }

/-- One user-level event of the page. -/
inductive Event where
  | setScenario (text : String)
  | setNewCode (text : String)
  | select (code action : String)
  | analyze (env : Env)
  | submitCodes (env : Env)
  | addCode (env : Env)
  | questionerSuccess (response : Option AnalysisResponse)

/-- The state after one event. -/
def step (s : HomeState) : Event → HomeState
  | .setScenario text => { s with scenario := text }
  | .setNewCode text => { s with newCode := text }
  | .select code action => { s with selectedCodes := handleCodeSelection s.selectedCodes code action }
  | .analyze env => handleSubmit env s
  | .submitCodes env => handleSubmitCodes env s
  | .addCode env => handleAddCode env s
  | .questionerSuccess response => handleQuestionerSuccess s response

/-- The states the page can be in: the initial one and every state an event
leads to from a reachable one. -/
inductive Reachable : HomeState → Prop where
  | init : Reachable HomeState.initial
  | step {s : HomeState} (e : Event) : Reachable s → Reachable (step s e)

/-- The codes of the tracked entries of a result, in traversal order. -/
def Spec.trackedCodes (result : Option AnalysisResponse) : List String :=
  ((Spec.codeEntries result).filter (fun te => Spec.isTracked te.1 te.2)).filterMap
    (fun te => te.2.code)

/-! ## Question dialog (Questioner.jsx) -/

/-- A transient notification of the dialog: `message.error` or `message.success`. -/
inductive Toast where
  | error (text : String)
  | success (text : String)
deriving DecidableEq

/-- What one run of the dialog's `handleSubmit` leaves behind: its `loading`
state, the notification shown, whether the form was reset, the argument of
`onSubmitSuccess` when it was called, and whether `onClose` was called. -/
structure QuestionerOutcome where
  loading : Bool
  toast : Option Toast
  formReset : Bool
  submitSuccess : Option AnalysisResponse
  closed : Bool
deriving DecidableEq

/-- The `catch` and `finally` blocks of the dialog's `handleSubmit`
(Questioner.jsx, lines 73-78). -/
def Questioner.caught (err : Thrown) : QuestionerOutcome :=
  { loading := false,
    toast := some (.error (orElse err.message "Failed to submit answers")),
    formReset := false, submitSuccess := none, closed := false }

/-- The handler `handleSubmit` of `Questioner` (Questioner.jsx, lines 40-79).
`validateFields` is what `form.validateFields()` settles to: the answers, or the
rejection it throws. -/
def Questioner.handleSubmit (env : Env) (recordId : String)
    (validateFields : Except Thrown (List (String × String))) : QuestionerOutcome :=
  match validateFields with
  | .error err => Questioner.caught err
  | .ok values =>
    if recordId = "" then Questioner.caught { message := some "Record ID is missing" }
    else
      match submitQuestionAnswers env values recordId with
      | .error err => Questioner.caught err
      | .ok response =>
        if response.status = some "error" then
          { loading := false,
            toast := some (.error (orElse response.message "Server returned an error")),
            formReset := false, submitSuccess := none, closed := false }
        else
          { loading := false,
            toast := some (.success "Answers submitted successfully"),
            formReset := true, submitSuccess := some response, closed := true }

/-- The dialog as `Home` mounts it (Home.jsx, lines 570-581): it exists while
`result` is not null, its `recordId` is `result?.data?.record_id || ''` and its
`onSubmitSuccess` is `handleQuestionerSuccess`. The pair is the page state after
the run and what the dialog did; `none` when no dialog is mounted. -/
def submitAnswers (env : Env) (s : HomeState)
    (validateFields : Except Thrown (List (String × String))) :
    Option (HomeState × QuestionerOutcome) :=
  match s.result with
  | none => none
  | some _ =>
    let outcome := Questioner.handleSubmit env (orElse (recordId s.result) "") validateFields
    match outcome.submitSuccess with
    | some response => some (handleQuestionerSuccess s (some response), outcome)
    | none => some (s, outcome)

/-- The text shown for a failed request: the message of the response body when
there is a body with a non-empty message; otherwise `noMessage` when there is a
body and `noBody` when there is none. -/
def Spec.failureText (error : AxiosError) (noBody noMessage : String) : String :=
  match error.response with
  | some (some body) =>
    match body.message with
    | some m => if m ≠ "" then m else noMessage
    | none => noMessage
  | _ => noBody

/-! ## Sample data -/

/-- A code entry as the backend sends it: a code and no applicability flag. -/
def plainEntry (code : String) : Option CodeEntry :=
  some { code := some code, explanation := some "", doubt := some "", isApplicable := none }

/-- A topic with the given codes. -/
def plainTopic (name : String) (codes : List String) : TopicData :=
  { topic_name := some name, activated_subtopics := some [],
    specific_codes := some (codes.map plainEntry) }

/-- A response with the given topics and record id `rec-1`. -/
def plainResult (topics : List (String × TopicData)) : AnalysisResponse :=
  { status := some "success", message := none,
    data := some { record_id := some "rec-1", subtopics_data := some topics,
                   inspector_results := none, cdt_questions := none, icd_questions := none } }

/-- The analyze response of the scenario of the specification: one topic with
the codes `D0150` and `none`, another with the code `D1206`. -/
def scenarioResult : AnalysisResponse :=
  plainResult [("diagnostic", plainTopic "Diagnostic" ["D0150", "none"]),
               ("preventive", plainTopic "Preventive" ["D1206"])]

/-- A response whose only code is the sentinel `none`. -/
def sentinelResult : AnalysisResponse :=
  plainResult [("diagnostic", plainTopic "Diagnostic" ["none"])]

/-- A response without a real code to triage: a topic without `specific_codes`,
a topic holding a null entry, an empty code and the sentinel, and a custom topic
holding a code judged not applicable. -/
def noRealCodeResult : AnalysisResponse :=
  plainResult
    [("empty", { topic_name := some "Empty", activated_subtopics := none,
                 specific_codes := none }),
     ("diagnostic", { topic_name := some "Diagnostic", activated_subtopics := none,
                      specific_codes := some [none, plainEntry "", plainEntry "none"] }),
     ("custom_codes", { topic_name := some "Custom Added Codes", activated_subtopics := none,
                        specific_codes := some [some ⟨some "D9999", some "does not fit",
                          some "None", some false⟩] })]

/-- Whether the push of `handleAddCode` finds a list to push on: a `custom_codes`
topic that is already in the result carries `specific_codes`. A topic created
by `handleAddCode` itself always does. -/
def customCodesHasList (subtopics : Option (List (String × TopicData))) : Bool :=
  match objGet (subtopics.getD []) "custom_codes" with
  | some topic => topic.specific_codes.isSome
  | none => true

/-- The `specific_codes` of the `custom_codes` topic before a merge; the empty
list when the topic or the whole dictionary is absent. -/
def customCodesBefore (subtopics : Option (List (String × TopicData))) :
    List (Option CodeEntry) :=
  match objGet (subtopics.getD []) "custom_codes" with
  | some topic => topic.specific_codes.getD []
  | none => []

/-- A network failure without a response. -/
def networkError : AxiosError := { response := none, message := some "Network Error" }

/-- A backend that answers the add-custom-code request with `codeData` and is
unreachable on every other endpoint. -/
def replyEnv (codeData : CodeData) : Env :=
  { postAnalyze := fun _ => .error networkError,
    postStoreCodeStatus := fun _ _ => .error networkError,
    postAnswerQuestions := fun _ _ => .error networkError,
    postAddCustomCode := fun _ _ _ => .ok { data := some { code_data := some codeData } },
    typeErrorMessage := "Cannot read properties of undefined (reading 'push')" }

/-- A result in which a `custom_codes` topic arrives without `specific_codes`. -/
def listlessCustomResult : AnalysisResponse :=
  plainResult
    [("diagnostic", plainTopic "Diagnostic" ["D0150"]),
     ("custom_codes", { topic_name := some "Custom Added Codes", activated_subtopics := none,
                        specific_codes := none })]

/-- An add-custom-code answer in the format the page parses. -/
def applicableCodeData : CodeData :=
  { code := "D9999", explanation := some "**Applicable?** Yes\n**Reason**: fits criteria",
    doubt := none }

/-- The page after an analysis returned `r`, with `D9999` typed in the
custom-code field. -/
def addCodeState (r : AnalysisResponse) : HomeState :=
  { scenario := "periodic exam", loading := false, result := some r, error := none,
    selectedCodes := { accepted := [], denied := ["D9999"] }, submitting := false,
    newCode := "D9999" }

/-- An add-custom-code answer in the words of the specification, without the
emphasis marks the page looks for. -/
def plainWordsCodeData : CodeData :=
  { code := "D9999", explanation := some "Applicable? Yes\nReason: fits criteria",
    doubt := none }

/-- An analyze response that also asks a clarifying question. -/
def questionsResult : AnalysisResponse :=
  { status := some "success", message := none,
    data := some { record_id := some "rec-1",
                   subtopics_data := some [("diagnostic", plainTopic "Diagnostic" ["D0150"])],
                   inspector_results := none,
                   cdt_questions := some ["Was the exam periodic?"],
                   icd_questions := none } }

/-- A backend that answers the analyze request with `r`, the add-custom-code
request with `codeData`, and accepts the final submission. -/
def answeringEnv (r : AnalysisResponse) (codeData : CodeData) : Env :=
  { postAnalyze := fun _ => .ok r,
    postStoreCodeStatus := fun _ _ => .ok (),
    postAnswerQuestions := fun _ _ => .error networkError,
    postAddCustomCode := fun _ _ _ => .ok { data := some { code_data := some codeData } },
    typeErrorMessage := "Cannot read properties of undefined (reading 'push')" }

/-- A session that ends with an answer submission: the scenario is analyzed and
comes back with a question, the code `D0150` is accepted, the custom code
`D9999` is added, and the answers then return `scenarioResult`. -/
def answeredSession : List Event :=
  [.setScenario "periodic exam",
   .analyze (answeringEnv questionsResult applicableCodeData),
   .select "D0150" "accept",
   .setNewCode "D9999",
   .addCode (answeringEnv questionsResult applicableCodeData),
   .questionerSuccess (some scenarioResult)]

/-- The page with the scenario result on display and both of its codes accepted. -/
def triagedState : HomeState :=
  { scenario := "periodic exam", loading := false, result := some scenarioResult,
    error := none, selectedCodes := { accepted := ["D0150", "D1206"], denied := [] },
    submitting := false, newCode := "" }

/-- A selection with two accepted codes and one denied code. -/
def mixedSelection : SelectedCodes :=
  { accepted := ["D0150", "D1206"], denied := ["D9999"] }

/-- The code entries of a dictionary of topics, each with the key of its topic. -/
def Spec.topicEntries (sd : List (String × TopicData)) : List (String × CodeEntry) :=
  sd.flatMap (fun p => ((p.2.specific_codes.getD []).filterMap id).map (fun e => (p.1, e)))

/-- An add-custom-code answer that the page judges not applicable. -/
def notApplicableCodeData : CodeData :=
  { code := "D9999", explanation := some "**Applicable?** No\n**Reason**: not documented",
    doubt := some "" }

/-- A backend on which every request fails with `error`. -/
def failingEnv (error : AxiosError) : Env :=
  { postAnalyze := fun _ => .error error,
    postStoreCodeStatus := fun _ _ => .error error,
    postAnswerQuestions := fun _ _ => .error error,
    postAddCustomCode := fun _ _ _ => .error error,
    typeErrorMessage := "Cannot read properties of undefined (reading 'push')" }

/-- A failed request without a response: the request timed out. -/
def timeoutError : AxiosError :=
  { response := none, message := some "timeout of 5000ms exceeded" }

/-- A failed request whose response body carries a message. -/
def serverError : AxiosError :=
  { response := some (some { message := some "Scenario is too short" }),
    message := some "Request failed with status code 422" }

/-- A failed request whose response body carries no message. -/
def bareServerError : AxiosError :=
  { response := some (some { message := none }),
    message := some "Request failed with status code 500" }

/-- A backend that answers the answer submission with `response`, and the
analyze request likewise; the other endpoints are unreachable. -/
def answerEnv (response : AnalysisResponse) : Env :=
  { postAnalyze := fun _ => .ok response,
    postStoreCodeStatus := fun _ _ => .error networkError,
    postAnswerQuestions := fun _ _ => .ok response,
    postAddCustomCode := fun _ _ _ => .error networkError,
    typeErrorMessage := "Cannot read properties of undefined (reading 'push')" }

/-- A soft error of the answer endpoint. -/
def softErrorResponse : AnalysisResponse :=
  { status := some "error", message := some "Could not process the answers", data := none }

/-- The answers typed into the dialog of `questionsResult`. -/
def sampleAnswers : List (String × String) := [("Was the exam periodic?", "yes")]

/-- The page with the question dialog of `questionsResult` open and one code
already accepted. -/
def questionsState : HomeState :=
  { scenario := "periodic exam", loading := false, result := some questionsResult,
    error := none, selectedCodes := { accepted := ["D0150"], denied := [] },
    submitting := false, newCode := "" }

/-- An analyze response that carries codes but no record id. -/
def noRecordIdResult : AnalysisResponse :=
  { status := some "success", message := none,
    data := some { record_id := none,
                   subtopics_data := some [("diagnostic", plainTopic "Diagnostic" ["D0150"])],
                   inspector_results := none, cdt_questions := none, icd_questions := none } }

/-- The page with `noRecordIdResult` on display and its code accepted. -/
def noRecordIdState : HomeState :=
  { scenario := "periodic exam", loading := false, result := some noRecordIdResult,
    error := none, selectedCodes := { accepted := ["D0150"], denied := [] },
    submitting := false, newCode := "" }

/-- A backend that stores a code status only when the request carries no record
id, and rejects every other request. -/
def storeWithoutRecordEnv : Env :=
  { postAnalyze := fun _ => .error networkError,
    postStoreCodeStatus := fun _ recordId =>
      match recordId with
      | none => .ok ()
      | some _ => .error networkError,
    postAnswerQuestions := fun _ _ => .error networkError,
    postAddCustomCode := fun _ _ _ => .error networkError,
    typeErrorMessage := "Cannot read properties of undefined (reading 'push')" }

/-- Every character that `trim` strips: the white space and line terminator
code points of the language. -/
def ecmaWhiteSpace : List Char :=
  [0x09, 0x0A, 0x0B, 0x0C, 0x0D, 0x20, 0xA0, 0x1680, 0x2000, 0x2001, 0x2002, 0x2003, 0x2004,
   0x2005, 0x2006, 0x2007, 0x2008, 0x2009, 0x200A, 0x2028, 0x2029, 0x202F, 0x205F, 0x3000,
   0xFEFF].map Char.ofNat

/-- An add-custom-code answer with text around the verdict and blanks around the
reason. -/
def paddedCodeData : CodeData :=
  { code := "D9999",
    explanation :=
      some "Verdict: **Applicable?** Yes\n**Reason**:  fits criteria \t\nSee D0150.",
    doubt := none }

/-! # Theorems -/

/-! ## Selection: a code is on at most one list -/

/-- No code is both accepted and denied. -/
def Exclusive (sc : SelectedCodes) : Prop :=
  ∀ c : String, ¬ (c ∈ sc.accepted ∧ c ∈ sc.denied)

theorem mem_filter_ne {l : List String} {c code : String} :
    c ∈ l.filter (fun x => x != code) ↔ c ∈ l ∧ c ≠ code := by
  simp [List.mem_filter]

theorem handleCodeSelection_accepted (prev : SelectedCodes) (code action : String) :
    (handleCodeSelection prev code action).accepted =
      prev.accepted.filter (fun c => c != code) ++ (if action = "accept" then [code] else []) := by
  unfold handleCodeSelection
  by_cases h1 : action = "accept"
  · simp [h1]
  · by_cases h2 : action = "deny" <;> simp [h1, h2]

theorem handleCodeSelection_denied (prev : SelectedCodes) (code action : String) :
    (handleCodeSelection prev code action).denied =
      prev.denied.filter (fun c => c != code) ++ (if action = "deny" then [code] else []) := by
  unfold handleCodeSelection
  by_cases h1 : action = "accept"
  · have h2 : action ≠ "deny" := by rw [h1]; decide
    simp [h1]
  · by_cases h2 : action = "deny" <;> simp [h1, h2]

theorem exclusive_empty : Exclusive { accepted := [], denied := [] } := by
  intro c h
  simp at h

theorem exclusive_handleCodeSelection {prev : SelectedCodes} (h : Exclusive prev)
    (code action : String) : Exclusive (handleCodeSelection prev code action) := by
  intro c hc
  rw [handleCodeSelection_accepted, handleCodeSelection_denied] at hc
  obtain ⟨ha, hd⟩ := hc
  rw [List.mem_append, mem_filter_ne] at ha hd
  by_cases hcc : c = code
  · subst hcc
    by_cases h1 : action = "accept"
    · have h2 : action ≠ "deny" := by rw [h1]; decide
      simp [h2] at hd
    · simp [h1] at ha
  · have ha1 : c ∈ prev.accepted := by
      rcases ha with ha | ha
      · exact ha.1
      · split at ha <;> simp at ha
        exact absurd ha hcc
    have hd1 : c ∈ prev.denied := by
      rcases hd with hd | hd
      · exact hd.1
      · split at hd <;> simp at hd
        exact absurd hd hcc
    exact h c ⟨ha1, hd1⟩

theorem handleSubmit_selectedCodes (env : Env) (s : HomeState) :
    (handleSubmit env s).selectedCodes = { accepted := [], denied := [] } := by
  unfold handleSubmit
  cases analyzeDentalScenario env s.scenario <;> rfl

theorem handleSubmitCodes_selectedCodes (env : Env) (s : HomeState) :
    (handleSubmitCodes env s).selectedCodes = { accepted := [], denied := [] } ∨
      (handleSubmitCodes env s).selectedCodes = s.selectedCodes := by
  unfold handleSubmitCodes
  dsimp only
  split
  · exact Or.inl rfl
  · exact Or.inr rfl

theorem handleQuestionerSuccess_selectedCodes (s : HomeState)
    (response : Option AnalysisResponse) :
    (handleQuestionerSuccess s response).selectedCodes = s.selectedCodes := by
  unfold handleQuestionerSuccess
  split
  · rfl
  · split
    · rfl
    · split <;> rfl

theorem handleAddCode_selectedCodes (env : Env) (s : HomeState) :
    (handleAddCode env s).selectedCodes = s.selectedCodes ∨
      ∃ code, (handleAddCode env s).selectedCodes =
        handleCodeSelection s.selectedCodes code "accept" := by
  unfold handleAddCode
  repeat' split
  all_goals first
    | exact Or.inl rfl
    | (dsimp only
       split
       · exact Or.inr ⟨_, rfl⟩
       · exact Or.inl rfl)

theorem exclusive_step {s : HomeState} (h : Exclusive s.selectedCodes) (e : Event) :
    Exclusive (step s e).selectedCodes := by
  cases e with
  | setScenario text => exact h
  | setNewCode text => exact h
  | select code action => exact exclusive_handleCodeSelection h code action
  | analyze env =>
    show Exclusive (handleSubmit env s).selectedCodes
    rw [handleSubmit_selectedCodes]
    exact exclusive_empty
  | submitCodes env =>
    show Exclusive (handleSubmitCodes env s).selectedCodes
    rcases handleSubmitCodes_selectedCodes env s with h1 | h1
    · rw [h1]; exact exclusive_empty
    · rw [h1]; exact h
  | addCode env =>
    show Exclusive (handleAddCode env s).selectedCodes
    rcases handleAddCode_selectedCodes env s with h1 | ⟨code, h1⟩
    · rw [h1]; exact h
    · rw [h1]; exact exclusive_handleCodeSelection h code "accept"
  | questionerSuccess response =>
    show Exclusive (handleQuestionerSuccess s response).selectedCodes
    rw [handleQuestionerSuccess_selectedCodes]
    exact h

/-- C1: after `handleCodeSelection(code, 'accept')` the code is in `accepted` and
not in `denied`, and after `handleCodeSelection(code, 'deny')` it is in `denied`
and not in `accepted`, for every previous selection and every code string. -/
theorem handleCodeSelection_moves_code (prev : SelectedCodes) (code : String) :
    (code ∈ (handleCodeSelection prev code "accept").accepted ∧
      code ∉ (handleCodeSelection prev code "accept").denied) ∧
    (code ∈ (handleCodeSelection prev code "deny").denied ∧
      code ∉ (handleCodeSelection prev code "deny").accepted) := by
  have hne : ("accept" : String) ≠ "deny" := by decide
  have hne2 : ("deny" : String) ≠ "accept" := by decide
  refine ⟨⟨?_, ?_⟩, ⟨?_, ?_⟩⟩
  · rw [handleCodeSelection_accepted]; simp
  · rw [handleCodeSelection_denied]; simp [hne]
  · rw [handleCodeSelection_denied]; simp
  · rw [handleCodeSelection_accepted]; simp [hne2]

/-- C2: in every state reachable from the initial page state by any sequence of
code selections, analyze runs, custom-code merges, final submissions and answer
submissions, no code string is in both `accepted` and `denied`. -/
theorem reachable_exclusive (s : HomeState) (h : Reachable s) (c : String) :
    ¬ (c ∈ s.selectedCodes.accepted ∧ c ∈ s.selectedCodes.denied) := by
  have key : Exclusive s.selectedCodes := by
    induction h with
    | init => exact exclusive_empty
    | step e _ ih => exact exclusive_step ih e
  exact key c

/-- C2, at the state reached by denying and then accepting `D0150`. -/
theorem reachable_exclusive_witness :
    Reachable (step (step HomeState.initial (.select "D0150" "deny")) (.select "D0150" "accept")) ∧
    ¬ ("D0150" ∈ (step (step HomeState.initial (.select "D0150" "deny"))
          (.select "D0150" "accept")).selectedCodes.accepted ∧
        "D0150" ∈ (step (step HomeState.initial (.select "D0150" "deny"))
          (.select "D0150" "accept")).selectedCodes.denied) :=
  ⟨Reachable.step _ (Reachable.step _ Reachable.init),
   reachable_exclusive _ (Reachable.step _ (Reachable.step _ Reachable.init)) "D0150"⟩

/-! ## The two traversals of the result -/

theorem pushIfCounted_some (topic : String) (acc : List String) (e : CodeEntry) :
    pushIfCounted topic acc (some e) =
      acc ++ (if Spec.isTracked topic e then e.code.toList else []) := by
  unfold pushIfCounted Spec.isTracked Spec.hasRealCode Spec.isNonApplicableCustom
  rcases e with ⟨code, ex, db, ap⟩
  cases code with
  | none => simp
  | some c =>
    by_cases h1 : c = ""
    · simp [h1]
    · by_cases h2 : c = "none"
      · simp [h2]
      · cases ap with
        | none => simp [h1, h2]
        | some b =>
          by_cases h3 : topic = "custom_codes"
          · cases b <;> simp [h1, h2, h3]
          · cases b <;> simp [h1, h2, h3]

theorem foldl_pushIfCounted (topic : String) (codes : List (Option CodeEntry))
    (acc : List String) :
    codes.foldl (pushIfCounted topic) acc =
      acc ++ ((codes.filterMap id).filter (Spec.isTracked topic)).filterMap (fun e => e.code) := by
  induction codes generalizing acc with
  | nil => simp
  | cons cd rest ih =>
    rw [List.foldl_cons, ih]
    cases cd with
    | none => simp [pushIfCounted]
    | some e =>
      rw [pushIfCounted_some]
      by_cases ht : Spec.isTracked topic e = true
      · cases hc : e.code <;> simp [ht, hc]
      · simp [ht]

/-- The entries of a dictionary of topics, as `Spec.codeEntries` lists them. -/
theorem codeEntries_some (r : AnalysisResponse) (d : ResultData)
    (sd : List (String × TopicData)) (hd : r.data = some d) (hs : d.subtopics_data = some sd) :
    Spec.codeEntries (some r) =
      sd.flatMap (fun p => ((p.2.specific_codes.getD []).filterMap id).map (fun e => (p.1, e))) := by
  simp [Spec.codeEntries, subtopicsData, hd, hs]

theorem foldl_collectTopic (sd : List (String × TopicData)) (acc : List String) :
    sd.foldl collectTopic acc =
      acc ++ ((sd.flatMap (fun p =>
          ((p.2.specific_codes.getD []).filterMap id).map (fun e => (p.1, e)))).filter
        (fun te => Spec.isTracked te.1 te.2)).filterMap (fun te => te.2.code) := by
  induction sd generalizing acc with
  | nil => simp
  | cons p rest ih =>
    rw [List.foldl_cons, ih]
    have hp : collectTopic acc p =
        acc ++ (((p.2.specific_codes.getD []).filterMap id).filter
          (Spec.isTracked p.1)).filterMap (fun e => e.code) := by
      unfold collectTopic
      cases hsc : p.2.specific_codes with
      | none => simp
      | some codes => simp [foldl_pushIfCounted]
    rw [hp, List.flatMap_cons, List.filter_append, List.filterMap_append, List.append_assoc]
    congr 2
    simp [List.filter_map, List.filterMap_map, Function.comp_def]

theorem areAllCodesSelected_eq (result : Option AnalysisResponse) (sc : SelectedCodes) :
    areAllCodesSelected result sc =
      (decide ((Spec.trackedCodes result).length > 0) &&
        (Spec.trackedCodes result).all (fun code => sc.accepted.contains code)) := by
  unfold areAllCodesSelected Spec.trackedCodes Spec.codeEntries
  cases h : subtopicsData result with
  | none => simp
  | some sd =>
    simp only []
    rw [foldl_collectTopic, List.nil_append]

theorem mem_trackedCodes (result : Option AnalysisResponse) (c : String) :
    c ∈ Spec.trackedCodes result ↔
      ∃ te ∈ Spec.codeEntries result, Spec.isTracked te.1 te.2 = true ∧ te.2.code = some c := by
  unfold Spec.trackedCodes
  simp only [List.mem_filterMap, List.mem_filter]
  constructor
  · rintro ⟨te, ⟨h1, h2⟩, h3⟩
    exact ⟨te, h1, h2, h3⟩
  · rintro ⟨te, h1, h2, h3⟩
    exact ⟨te, ⟨h1, h2⟩, h3⟩

theorem isTracked_code {topic : String} {e : CodeEntry} (h : Spec.isTracked topic e = true) :
    ∃ c, e.code = some c := by
  unfold Spec.isTracked Spec.hasRealCode at h
  cases hc : e.code with
  | none => simp [hc] at h
  | some c => exact ⟨c, rfl⟩

theorem isAccepted_iff (sc : SelectedCodes) (e : CodeEntry) (c : String) (hc : e.code = some c) :
    Spec.isAccepted sc e = true ↔ c ∈ sc.accepted := by
  simp [Spec.isAccepted, hc]

/-- C3: `areAllCodesSelected()` is true if and only if the result has at least
one tracked entry (a real code that is not a non-applicable custom code) and the
code of every tracked entry is in `accepted`. -/
theorem areAllCodesSelected_iff (result : Option AnalysisResponse) (sc : SelectedCodes) :
    areAllCodesSelected result sc = true ↔
      (∃ te ∈ Spec.codeEntries result, Spec.isTracked te.1 te.2 = true) ∧
      (∀ te ∈ Spec.codeEntries result, Spec.isTracked te.1 te.2 = true →
        Spec.isAccepted sc te.2 = true) := by
  rw [areAllCodesSelected_eq]
  simp only [Bool.and_eq_true, decide_eq_true_eq, List.all_eq_true, List.length_pos, ne_eq]
  constructor
  · rintro ⟨hne, hall⟩
    refine ⟨?_, ?_⟩
    · obtain ⟨c, hc⟩ := List.exists_mem_of_ne_nil _ hne
      obtain ⟨te, h1, h2, _⟩ := (mem_trackedCodes result c).1 hc
      exact ⟨te, h1, h2⟩
    · intro te hte htr
      obtain ⟨c, hc⟩ := isTracked_code htr
      rw [isAccepted_iff sc te.2 c hc]
      simpa using hall c ((mem_trackedCodes result c).2 ⟨te, hte, htr, hc⟩)
  · rintro ⟨⟨te, hte, htr⟩, hall⟩
    obtain ⟨c, hc⟩ := isTracked_code htr
    refine ⟨?_, ?_⟩
    · exact List.ne_nil_of_mem ((mem_trackedCodes result c).2 ⟨te, hte, htr, hc⟩)
    · intro c2 hc2
      obtain ⟨te2, h1, h2, h3⟩ := (mem_trackedCodes result c2).1 hc2
      simpa using (isAccepted_iff sc te2.2 c2 h3).1 (hall te2 h1 h2)

/-- C3, the claim as worded fails: on a result whose only code is the sentinel
`none`, every tracked entry is accepted (there is none) and yet
`areAllCodesSelected()` is false. -/
theorem areAllCodesSelected_not_vacuous :
    (∀ te ∈ Spec.codeEntries (some sentinelResult), Spec.isTracked te.1 te.2 = true →
        Spec.isAccepted SelectedCodes.empty te.2 = true) ∧
    areAllCodesSelected (some sentinelResult) SelectedCodes.empty = false := by
  decide

/-- C4: on a result without any tracked entry (no result, no `subtopics_data`,
no topics, or only null entries, empty codes, `none` codes and non-applicable
custom codes) `areAllCodesSelected()` is false, whatever the selection. -/
theorem areAllCodesSelected_false_of_no_real_code (result : Option AnalysisResponse)
    (sc : SelectedCodes)
    (h : ∀ te ∈ Spec.codeEntries result, Spec.isTracked te.1 te.2 = false) :
    areAllCodesSelected result sc = false := by
  have hnil : Spec.trackedCodes result = [] := by
    rw [List.eq_nil_iff_forall_not_mem]
    intro c hc
    obtain ⟨te, hte, htr, _⟩ := (mem_trackedCodes result c).1 hc
    rw [h te hte] at htr
    exact absurd htr (by decide)
  rw [areAllCodesSelected_eq, hnil]
  rfl

/-- C4, on a result with a null entry, an empty code, a `none` code and a
non-applicable custom code, with all of these codes accepted. -/
theorem areAllCodesSelected_false_of_no_real_code_witness :
    (∀ te ∈ Spec.codeEntries (some noRealCodeResult), Spec.isTracked te.1 te.2 = false) ∧
    areAllCodesSelected (some noRealCodeResult)
      { accepted := ["", "none", "D9999"], denied := [] } = false :=
  ⟨by decide, areAllCodesSelected_false_of_no_real_code _ _ (by decide)⟩

theorem countIfCounted_some (sc : SelectedCodes) (topic : String) (counts : Nat × Nat)
    (e : CodeEntry) :
    countIfCounted sc topic counts (some e) =
      (counts.1 + (if Spec.isTracked topic e then 1 else 0),
       counts.2 + (if (Spec.isTracked topic e && Spec.isAccepted sc e) then 1 else 0)) := by
  unfold countIfCounted Spec.isTracked Spec.hasRealCode Spec.isNonApplicableCustom
    Spec.isAccepted
  rcases e with ⟨code, ex, db, ap⟩
  cases code with
  | none => simp
  | some c =>
    by_cases h1 : c = ""
    · simp [h1]
    · by_cases h2 : c = "none"
      · simp [h2]
      · by_cases h4 : c ∈ sc.accepted
        · cases ap with
          | none => simp [h1, h2, h4]
          | some b =>
            by_cases h3 : topic = "custom_codes"
            · cases b <;> simp [h1, h2, h3, h4]
            · cases b <;> simp [h1, h2, h3, h4]
        · cases ap with
          | none => simp [h1, h2, h4]
          | some b =>
            by_cases h3 : topic = "custom_codes"
            · cases b <;> simp [h1, h2, h3, h4]
            · cases b <;> simp [h1, h2, h3, h4]

theorem foldl_countIfCounted (sc : SelectedCodes) (topic : String)
    (codes : List (Option CodeEntry)) (counts : Nat × Nat) :
    codes.foldl (countIfCounted sc topic) counts =
      (counts.1 + (codes.filterMap id).countP (Spec.isTracked topic),
       counts.2 + (codes.filterMap id).countP
          (fun e => Spec.isTracked topic e && Spec.isAccepted sc e)) := by
  induction codes generalizing counts with
  | nil => simp
  | cons cd rest ih =>
    rw [List.foldl_cons, ih]
    cases cd with
    | none => simp [countIfCounted]
    | some e =>
      rw [countIfCounted_some]
      simp only [List.filterMap_cons, id_eq, List.countP_cons]
      ext
      · simp only []; omega
      · simp only []; omega

theorem foldl_countTopic (sc : SelectedCodes) (sd : List (String × TopicData))
    (counts : Nat × Nat) :
    sd.foldl (countTopic sc) counts =
      (counts.1 + (sd.flatMap (fun p =>
          ((p.2.specific_codes.getD []).filterMap id).map (fun e => (p.1, e)))).countP
            (fun te => Spec.isTracked te.1 te.2),
       counts.2 + (sd.flatMap (fun p =>
          ((p.2.specific_codes.getD []).filterMap id).map (fun e => (p.1, e)))).countP
            (fun te => Spec.isTracked te.1 te.2 && Spec.isAccepted sc te.2)) := by
  induction sd generalizing counts with
  | nil => simp
  | cons p rest ih =>
    rw [List.foldl_cons, ih]
    have hp : countTopic sc counts p =
        (counts.1 + ((p.2.specific_codes.getD []).filterMap id).countP (Spec.isTracked p.1),
         counts.2 + ((p.2.specific_codes.getD []).filterMap id).countP
            (fun e => Spec.isTracked p.1 e && Spec.isAccepted sc e)) := by
      unfold countTopic
      cases hsc : p.2.specific_codes with
      | none => simp
      | some codes => simp [foldl_countIfCounted]
    rw [hp, List.flatMap_cons, List.countP_append, List.countP_append, List.countP_map,
      List.countP_map]
    simp only [Function.comp_def, Nat.add_assoc]

theorem countP_split {α : Type} (p q : α → Bool) (l : List α) :
    l.countP p = l.countP (fun x => p x && q x) + l.countP (fun x => p x && !q x) := by
  induction l with
  | nil => simp
  | cons x rest ih =>
    simp only [List.countP_cons, ih]
    cases p x <;> cases q x <;> simp <;> omega

theorem getRemainingCodeCount_eq (result : Option AnalysisResponse) (sc : SelectedCodes) :
    getRemainingCodeCount result sc =
      ((Spec.codeEntries result).countP
        (fun te => Spec.isTracked te.1 te.2 && !Spec.isAccepted sc te.2) : Nat) := by
  unfold getRemainingCodeCount Spec.codeEntries
  cases h : subtopicsData result with
  | none => simp
  | some sd =>
    simp only []
    rw [foldl_countTopic]
    have hs := countP_split (fun te : String × CodeEntry => Spec.isTracked te.1 te.2)
      (fun te => Spec.isAccepted sc te.2)
      (sd.flatMap (fun p => ((p.2.specific_codes.getD []).filterMap id).map (fun e => (p.1, e))))
    simp only [Nat.zero_add]
    omega

/-- C5: `getRemainingCodeCount()` is the number of code entries, over all topics,
that are tracked (real code, not a non-applicable custom code) and whose code is
not in `accepted`; it is 0 without a result, without `data` and without
`subtopics_data`. For the topics `["D0150", "none"]` and `["D1206"]` it is 2 on
the empty selection, and after both codes are accepted it is 0 and
`areAllCodesSelected()` is true. -/
theorem getRemainingCodeCount_spec (result : Option AnalysisResponse) (sc : SelectedCodes)
    (status message recordId : Option String) (inspector : Option InspectorResults)
    (cdt icd : Option (List String)) :
    getRemainingCodeCount result sc =
      ((Spec.codeEntries result).countP
        (fun te => Spec.isTracked te.1 te.2 && !Spec.isAccepted sc te.2) : Nat) ∧
    getRemainingCodeCount none sc = 0 ∧
    getRemainingCodeCount (some { status := status, message := message, data := none }) sc = 0 ∧
    getRemainingCodeCount
      (some { status := status, message := message,
              data := some { record_id := recordId, subtopics_data := none,
                             inspector_results := inspector, cdt_questions := cdt,
                             icd_questions := icd } }) sc = 0 ∧
    getRemainingCodeCount (some scenarioResult) SelectedCodes.empty = 2 ∧
    getRemainingCodeCount (some scenarioResult)
      (handleCodeSelection (handleCodeSelection SelectedCodes.empty "D0150" "accept")
        "D1206" "accept") = 0 ∧
    areAllCodesSelected (some scenarioResult)
      (handleCodeSelection (handleCodeSelection SelectedCodes.empty "D0150" "accept")
        "D1206" "accept") = true := by
  refine ⟨getRemainingCodeCount_eq result sc, rfl, rfl, rfl, ?_, ?_, ?_⟩
  · decide
  · decide
  · decide

/-! ## Dictionaries -/

theorem objGet_objSet_same {α : Type} (o : List (String × α)) (k : String) (v : α) :
    objGet (objSet o k v) k = some v := by
  induction o with
  | nil => simp [objSet, objGet]
  | cons p rest ih =>
    obtain ⟨k1, w⟩ := p
    by_cases h : k1 = k
    · simp [objSet, objGet, h]
    · simp [objSet, objGet, h, ih]

theorem objGet_objSet_other {α : Type} (o : List (String × α)) (k key : String) (v : α)
    (h : key ≠ k) : objGet (objSet o k v) key = objGet o key := by
  induction o with
  | nil =>
    have h2 : k ≠ key := fun e => h e.symm
    simp [objSet, objGet, h2]
  | cons p rest ih =>
    obtain ⟨k1, w⟩ := p
    by_cases h1 : k1 = k
    · have h2 : k1 ≠ key := by rw [h1]; exact fun e => h e.symm
      have h3 : k ≠ key := fun e => h e.symm
      simp [objSet, objGet, h1, h3]
    · by_cases h2 : k1 = key
      · subst h2
        simp [objSet, objGet, h]
      · simp [objSet, objGet, h1, h2, ih]

theorem objSet_objSet {α : Type} (o : List (String × α)) (k : String) (v w : α) :
    objSet (objSet o k v) k w = objSet o k w := by
  induction o with
  | nil => simp [objSet]
  | cons p rest ih =>
    obtain ⟨k1, w1⟩ := p
    by_cases h1 : k1 = k
    · simp [objSet, h1]
    · simp [objSet, h1, ih]

theorem objSet_of_objGet_none {α : Type} (o : List (String × α)) (k : String) (v : α)
    (h : objGet o k = none) : objSet o k v = o ++ [(k, v)] := by
  induction o with
  | nil => simp [objSet]
  | cons p rest ih =>
    obtain ⟨k1, w⟩ := p
    by_cases h1 : k1 = k
    · simp [objGet, h1] at h
    · simp only [objGet, h1, if_false] at h
      simp [objSet, h1, ih h]

theorem objSet_keys_of_objGet_some {α : Type} (o : List (String × α)) (k : String) (v w : α)
    (h : objGet o k = some w) : (objSet o k v).map Prod.fst = o.map Prod.fst := by
  induction o with
  | nil => simp [objGet] at h
  | cons p rest ih =>
    obtain ⟨k1, w1⟩ := p
    by_cases h1 : k1 = k
    · simp [objSet, h1]
    · simp only [objGet, h1, if_false] at h
      simp [objSet, h1, ih h]

/-! ## The custom-code merge -/

theorem pushCustomCode_absent (subtopics : Option (List (String × TopicData)))
    (entry : CodeEntry) (h : objGet (subtopics.getD []) "custom_codes" = none) :
    pushCustomCode subtopics entry =
      some (subtopics.getD [] ++
        [("custom_codes", { topic_name := some "Custom Added Codes", activated_subtopics := none,
                            specific_codes := some [some entry] })]) := by
  cases subtopics with
  | none => simp [pushCustomCode, objGet, objSet]
  | some sd =>
    simp only [Option.getD_some] at h
    simp only [pushCustomCode, h, objGet_objSet_same, objSet_objSet, List.nil_append]
    rw [objSet_of_objGet_none _ _ _ h]
    rfl

theorem pushCustomCode_present (subtopics : Option (List (String × TopicData)))
    (entry : CodeEntry) (topic : TopicData) (codes : List (Option CodeEntry))
    (h : objGet (subtopics.getD []) "custom_codes" = some topic)
    (hc : topic.specific_codes = some codes) :
    pushCustomCode subtopics entry =
      some (objSet (subtopics.getD []) "custom_codes"
        { topic with specific_codes := some (codes ++ [some entry]) }) := by
  cases subtopics with
  | none => simp [objGet] at h
  | some sd =>
    simp only [Option.getD_some] at h
    simp [pushCustomCode, h, hc]

theorem pushCustomCode_fails (subtopics : Option (List (String × TopicData)))
    (entry : CodeEntry) (topic : TopicData)
    (h : objGet (subtopics.getD []) "custom_codes" = some topic)
    (hc : topic.specific_codes = none) :
    pushCustomCode subtopics entry = none := by
  cases subtopics with
  | none => simp [objGet] at h
  | some sd =>
    simp only [Option.getD_some] at h
    simp [pushCustomCode, h, hc]

theorem handleAddCode_merged (env : Env) (s : HomeState) (r : AnalysisResponse)
    (d : ResultData) (rid : String) (codeData : CodeData) (sd : List (String × TopicData))
    (hnew : trim s.newCode ≠ "") (hr : s.result = some r) (hd : r.data = some d)
    (hrid : d.record_id = some rid) (hne : rid ≠ "")
    (hresp : env.postAddCustomCode s.newCode s.scenario rid =
      .ok { data := some { code_data := some codeData } })
    (hpush : pushCustomCode d.subtopics_data (customEntry codeData) = some sd) :
    handleAddCode env s =
      { s with
        loading := false, error := none, newCode := "",
        result := some { r with data := some { d with
          subtopics_data := some sd,
          inspector_results :=
            pushInspectorCode d.inspector_results (isApplicableOf codeData) codeData.code } },
        selectedCodes :=
          if isApplicableOf codeData then
            handleCodeSelection s.selectedCodes codeData.code "accept"
          else s.selectedCodes } := by
  unfold handleAddCode addCustomCode
  simp only [hnew, hr, hd, hrid, hne, hresp, hpush, if_false]

theorem handleAddCode_push_fails (env : Env) (s : HomeState) (r : AnalysisResponse)
    (d : ResultData) (rid : String) (codeData : CodeData)
    (hnew : trim s.newCode ≠ "") (hr : s.result = some r) (hd : r.data = some d)
    (hrid : d.record_id = some rid) (hne : rid ≠ "")
    (hresp : env.postAddCustomCode s.newCode s.scenario rid =
      .ok { data := some { code_data := some codeData } })
    (hpush : pushCustomCode d.subtopics_data (customEntry codeData) = none) :
    handleAddCode env s =
      { s with
        loading := false,
        error := some (orElse (some env.typeErrorMessage) "Failed to add custom code") } := by
  unfold handleAddCode addCustomCode
  simp only [hnew, hr, hd, hrid, hne, hresp, hpush, if_false]

theorem pushCustomCode_of_hasList (subtopics : Option (List (String × TopicData)))
    (entry : CodeEntry) (h : customCodesHasList subtopics = true) :
    ∃ sd topic, pushCustomCode subtopics entry = some sd ∧
      objGet sd "custom_codes" = some topic ∧
      topic.specific_codes = some (customCodesBefore subtopics ++ [some entry]) ∧
      ∀ key, key ≠ "custom_codes" → objGet sd key = objGet (subtopics.getD []) key := by
  unfold customCodesHasList at h
  unfold customCodesBefore
  cases hg : objGet (subtopics.getD []) "custom_codes" with
  | none =>
    refine ⟨_, { topic_name := some "Custom Added Codes", activated_subtopics := none,
                 specific_codes := some [some entry] },
      pushCustomCode_absent subtopics entry hg, ?_, ?_, ?_⟩
    · rw [← objSet_of_objGet_none _ _ _ hg, objGet_objSet_same]
    · rfl
    · intro key hkey
      rw [← objSet_of_objGet_none _ _ _ hg, objGet_objSet_other _ _ _ _ hkey]
  | some topic =>
    rw [hg] at h
    cases hc : topic.specific_codes with
    | none => simp [hc] at h
    | some codes =>
      refine ⟨_, { topic with specific_codes := some (codes ++ [some entry]) },
        pushCustomCode_present subtopics entry topic codes hg hc, ?_, ?_, ?_⟩
      · rw [objGet_objSet_same]
      · simp [hc]
      · intro key hkey
        rw [objGet_objSet_other _ _ _ _ hkey]

/-- The auto-accept where the push has a list to push on: when the custom-code
request of an active result with a record id is answered with `code_data`
judged applicable, and a `custom_codes` topic already in the result has a
`specific_codes` list, the state after `handleAddCode` has the code in
`accepted` and not in `denied`, whatever the selection was. -/
theorem handleAddCode_accepts_applicable (env : Env) (s : HomeState) (r : AnalysisResponse)
    (d : ResultData) (rid : String) (codeData : CodeData)
    (hnew : trim s.newCode ≠ "") (hr : s.result = some r) (hd : r.data = some d)
    (hrid : d.record_id = some rid) (hne : rid ≠ "")
    (hresp : env.postAddCustomCode s.newCode s.scenario rid =
      .ok { data := some { code_data := some codeData } })
    (hlist : customCodesHasList d.subtopics_data = true)
    (happ : isApplicableOf codeData = true) :
    codeData.code ∈ (handleAddCode env s).selectedCodes.accepted ∧
      codeData.code ∉ (handleAddCode env s).selectedCodes.denied := by
  obtain ⟨sd, _, hpush, _⟩ := pushCustomCode_of_hasList d.subtopics_data (customEntry codeData) hlist
  rw [handleAddCode_merged env s r d rid codeData sd hnew hr hd hrid hne hresp hpush]
  simp only [happ, if_true]
  have hne2 : ("accept" : String) ≠ "deny" := by decide
  constructor
  · rw [handleCodeSelection_accepted]; simp
  · rw [handleCodeSelection_denied]; simp [hne2]

/-- The auto-accept on the scenario result, with `D9999` denied beforehand. -/
theorem handleAddCode_accepts_applicable_witness :
    "D9999" ∈ (handleAddCode (replyEnv applicableCodeData)
        (addCodeState scenarioResult)).selectedCodes.accepted ∧
      "D9999" ∉ (handleAddCode (replyEnv applicableCodeData)
        (addCodeState scenarioResult)).selectedCodes.denied :=
  handleAddCode_accepts_applicable (replyEnv applicableCodeData) (addCodeState scenarioResult)
    scenarioResult _ "rec-1" applicableCodeData (by decide) rfl rfl rfl (by decide) rfl
    (by decide) (by decide)

/-- C6, at the failing input: the active result has the record id `rec-1` and a
`custom_codes` topic without `specific_codes`, and the answer to the custom
code `D9999` is judged applicable. The push raises before the auto-accept is
reached: the code is not in `accepted`, the selection is as it was, and the
whole effect of the handler is the message of the exception in the error
text. -/
theorem handleAddCode_listless_not_accepted :
    recordId (addCodeState listlessCustomResult).result = some "rec-1" ∧
    isApplicableOf applicableCodeData = true ∧
    applicableCodeData.code ∉ (handleAddCode (replyEnv applicableCodeData)
      (addCodeState listlessCustomResult)).selectedCodes.accepted ∧
    (handleAddCode (replyEnv applicableCodeData)
      (addCodeState listlessCustomResult)).selectedCodes =
        (addCodeState listlessCustomResult).selectedCodes ∧
    handleAddCode (replyEnv applicableCodeData) (addCodeState listlessCustomResult) =
      { addCodeState listlessCustomResult with
        error := some "Cannot read properties of undefined (reading 'push')" } := by
  decide

/-- The merge where the push has a list to push on: when the custom-code request
is answered with `code_data` and a `custom_codes` topic already in the result
has a `specific_codes` list, the result after `handleAddCode` has a
`custom_codes` topic whose `specific_codes` is the previous list (empty when the
topic or `subtopics_data` was absent) with one entry appended, carrying the code
of the response; every other topic and the record id are as before. -/
theorem handleAddCode_appends_entry (env : Env) (s : HomeState) (r : AnalysisResponse)
    (d : ResultData) (rid : String) (codeData : CodeData)
    (hnew : trim s.newCode ≠ "") (hr : s.result = some r) (hd : r.data = some d)
    (hrid : d.record_id = some rid) (hne : rid ≠ "")
    (hresp : env.postAddCustomCode s.newCode s.scenario rid =
      .ok { data := some { code_data := some codeData } })
    (hlist : customCodesHasList d.subtopics_data = true) :
    ∃ sd topic,
      subtopicsData (handleAddCode env s).result = some sd ∧
      objGet sd "custom_codes" = some topic ∧
      topic.specific_codes =
        some (customCodesBefore d.subtopics_data ++ [some (customEntry codeData)]) ∧
      (customEntry codeData).code = some codeData.code ∧
      (∀ key, key ≠ "custom_codes" → objGet sd key = objGet (d.subtopics_data.getD []) key) ∧
      recordId (handleAddCode env s).result = some rid := by
  obtain ⟨sd, topic, hpush, hget, hcodes, hother⟩ :=
    pushCustomCode_of_hasList d.subtopics_data (customEntry codeData) hlist
  refine ⟨sd, topic, ?_, hget, hcodes, rfl, hother, ?_⟩
  · rw [handleAddCode_merged env s r d rid codeData sd hnew hr hd hrid hne hresp hpush]
    rfl
  · rw [handleAddCode_merged env s r d rid codeData sd hnew hr hd hrid hne hresp hpush]
    simp [recordId, hrid]

/-- The merge on the scenario result, where no `custom_codes` topic exists yet. -/
theorem handleAddCode_appends_entry_witness :
    ∃ sd topic,
      subtopicsData (handleAddCode (replyEnv applicableCodeData)
        (addCodeState scenarioResult)).result = some sd ∧
      objGet sd "custom_codes" = some topic ∧
      topic.specific_codes =
        some (customCodesBefore (subtopicsData (some scenarioResult)) ++
          [some (customEntry applicableCodeData)]) ∧
      (customEntry applicableCodeData).code = some "D9999" ∧
      (∀ key, key ≠ "custom_codes" →
        objGet sd key = objGet ((subtopicsData (some scenarioResult)).getD []) key) ∧
      recordId (handleAddCode (replyEnv applicableCodeData)
        (addCodeState scenarioResult)).result = some "rec-1" :=
  handleAddCode_appends_entry (replyEnv applicableCodeData) (addCodeState scenarioResult)
    scenarioResult _ "rec-1" applicableCodeData (by decide) rfl rfl rfl (by decide) rfl
    (by decide)

/-- C7, at the failing input: on a result whose `custom_codes` topic has no
`specific_codes`, the push raises; the result stays as it was, the topic still
has no `specific_codes` and so no entry for the code, and the message of the
exception is shown. -/
theorem handleAddCode_listless_no_entry :
    (handleAddCode (replyEnv applicableCodeData) (addCodeState listlessCustomResult)).result =
      some listlessCustomResult ∧
    (objGet ((subtopicsData (some listlessCustomResult)).getD []) "custom_codes").map
      (fun topic => topic.specific_codes) = some none ∧
    (handleAddCode (replyEnv applicableCodeData) (addCodeState listlessCustomResult)).error =
      some "Cannot read properties of undefined (reading 'push')" := by
  decide

/-! ## Substring search and the reason pattern -/

theorem startsWithChars_iff (cs pat : List Char) :
    startsWithChars cs pat = true ↔ pat <+: cs := by
  induction pat generalizing cs with
  | nil => simp [startsWithChars]
  | cons p ps ih =>
    cases cs with
    | nil => simp [startsWithChars]
    | cons c rest =>
      simp only [startsWithChars, Bool.and_eq_true, beq_iff_eq, ih, List.cons_prefix_cons]
      constructor
      · rintro ⟨h1, h2⟩; exact ⟨h1.symm, h2⟩
      · rintro ⟨h1, h2⟩; exact ⟨h1.symm, h2⟩

theorem includesChars_iff (cs pat : List Char) :
    includesChars cs pat = true ↔ pat <:+: cs := by
  induction cs with
  | nil =>
    simp only [includesChars, startsWithChars_iff]
    constructor
    · intro h; exact h.isInfix
    · intro h
      have hp : pat = [] := List.eq_nil_of_infix_nil h
      rw [hp]
  | cons c rest ih =>
    simp only [includesChars, Bool.or_eq_true, startsWithChars_iff, ih]
    rw [List.infix_cons_iff]

theorem startsWithChars_append (pat tail : List Char) :
    startsWithChars (pat ++ tail) pat = true := by
  rw [startsWithChars_iff]
  exact List.prefix_append pat tail

theorem lazyLine_line (text rest : List Char)
    (hline : ∀ c ∈ text, isLineTerminator c = false)
    (hrest : rest = [] ∨ ∃ tail, rest = Char.ofNat 10 :: tail) :
    lazyLine (text ++ rest) = some text := by
  induction text with
  | nil =>
    rcases hrest with h | ⟨tail, h⟩
    · rw [h]; rfl
    · rw [h]; rfl
  | cons c t ih =>
    have hc : isLineTerminator c = false := hline c (List.mem_cons_self c t)
    have hc10 : (c.toNat == 0x0A) = false := by
      unfold isLineTerminator at hc
      simp only [Bool.or_eq_false_iff] at hc
      exact hc.1.1.1
    have ih2 := ih (fun x hx => hline x (List.mem_cons_of_mem c hx))
    simp [lazyLine, hc, hc10, ih2]

theorem prefix_of_shifted (p b tail : List Char) (hb : b ≠ [])
    (h : p <+: b ++ (p ++ tail)) : p <+: b ++ p.dropLast := by
  by_cases hp : p = []
  · rw [hp]; exact List.nil_prefix
  · have hsplit : b ++ (p ++ tail) = (b ++ p.dropLast) ++ ([p.getLast hp] ++ tail) := by
      conv_lhs => rw [← List.dropLast_append_getLast hp]
      simp
    rw [hsplit] at h
    have hlen : p.length ≤ (b ++ p.dropLast).length := by
      have hb1 : 0 < b.length := List.length_pos.2 hb
      simp only [List.length_append, List.length_dropLast]
      omega
    exact List.prefix_of_prefix_length_le h (List.prefix_append _ _) hlen

theorem reasonMatchChars_of_matchReasonAt (cs g : List Char)
    (h : matchReasonAt cs = some g) : reasonMatchChars cs = some g := by
  cases cs with
  | nil => simpa [reasonMatchChars] using h
  | cons c rest => simp [reasonMatchChars, h]

theorem matchReasonAt_marker (tail : List Char) :
    matchReasonAt (reasonMarker.data ++ tail) = lazyLine tail := by
  unfold matchReasonAt
  rw [startsWithChars_append, if_pos rfl, List.drop_left]

theorem reasonMatchChars_first (pre tail : List Char)
    (h : includesChars (pre ++ reasonMarker.data.dropLast) reasonMarker.data = false) :
    reasonMatchChars (pre ++ (reasonMarker.data ++ tail)) =
      reasonMatchChars (reasonMarker.data ++ tail) := by
  induction pre with
  | nil => rfl
  | cons c rest ih =>
    simp only [List.cons_append, includesChars, Bool.or_eq_false_iff] at h
    obtain ⟨h1, h2⟩ := h
    have hno : startsWithChars (c :: rest ++ (reasonMarker.data ++ tail)) reasonMarker.data
        = false := by
      cases hs : startsWithChars (c :: rest ++ (reasonMarker.data ++ tail)) reasonMarker.data with
      | false => rfl
      | true =>
        rw [startsWithChars_iff] at hs
        have h3 := prefix_of_shifted reasonMarker.data (c :: rest) tail (by simp) hs
        rw [← startsWithChars_iff] at h3
        rw [List.cons_append] at h3
        exact absurd (h3.symm.trans h1) (by decide)
    have hat : matchReasonAt (c :: (rest ++ (reasonMarker.data ++ tail))) = none := by
      unfold matchReasonAt
      rw [← List.cons_append, hno]
      rfl
    rw [List.cons_append, reasonMatchChars, hat]
    exact ih h2

theorem reasonMatchChars_line (pre text rest : List Char)
    (hfirst : includesChars (pre ++ reasonMarker.data.dropLast) reasonMarker.data = false)
    (hline : ∀ c ∈ text, isLineTerminator c = false)
    (hrest : rest = [] ∨ ∃ tail, rest = Char.ofNat 10 :: tail) :
    reasonMatchChars (pre ++ reasonMarker.data ++ text ++ rest) = some text := by
  have hassoc : pre ++ reasonMarker.data ++ text ++ rest =
      pre ++ (reasonMarker.data ++ (text ++ rest)) := by simp
  rw [hassoc, reasonMatchChars_first pre (text ++ rest) hfirst]
  apply reasonMatchChars_of_matchReasonAt
  rw [matchReasonAt_marker]
  exact lazyLine_line text rest hline hrest

theorem string_ne_empty_of_data {e : String} {cs : List Char} (h : e.data = cs)
    (hcs : cs ≠ []) : e ≠ "" := by
  intro he
  rw [he] at h
  exact hcs h.symm

theorem isApplicableOf_iff (codeData : CodeData) (e : String)
    (hexp : codeData.explanation = some e) :
    isApplicableOf codeData = true ↔ applicableMarker.data <:+: e.data := by
  unfold isApplicableOf
  simp only [hexp, Bool.and_eq_true, decide_eq_true_eq, includes, includesChars_iff]
  constructor
  · exact fun h => h.2
  · intro h
    refine ⟨?_, h⟩
    intro he
    rw [he] at h
    have hnil := List.eq_nil_of_infix_nil h
    exact absurd hnil (by decide)

theorem reasonOf_line (codeData : CodeData) (e : String) (pre text rest : List Char)
    (hexp : codeData.explanation = some e)
    (hsplit : e.data = pre ++ reasonMarker.data ++ text ++ rest)
    (hfirst : includesChars (pre ++ reasonMarker.data.dropLast) reasonMarker.data = false)
    (hline : ∀ c ∈ text, isLineTerminator c = false)
    (hrest : rest = [] ∨ ∃ tail, rest = Char.ofNat 10 :: tail) :
    reasonOf codeData = String.mk (trimChars text) := by
  have hne : e ≠ "" := by
    apply string_ne_empty_of_data hsplit
    have hm : reasonMarker.data ≠ [] := by decide
    simp [hm]
  unfold reasonOf
  simp only [hexp, hne, ne_eq, not_false_eq_true, if_true, reasonMatch, hsplit,
    reasonMatchChars_line pre text rest hfirst hline hrest, Option.map_some']
  rfl

theorem dropWhile_append_all (p : Char → Bool) (lead tail : List Char)
    (h : ∀ c ∈ lead, p c = true) : (lead ++ tail).dropWhile p = tail.dropWhile p := by
  induction lead with
  | nil => rfl
  | cons c rest ih =>
    have hc : p c = true := h c (List.mem_cons_self c rest)
    simp only [List.cons_append, List.dropWhile_cons, hc, if_true]
    exact ih (fun x hx => h x (List.mem_cons_of_mem c hx))

theorem dropWhile_of_head (p : Char → Bool) (l : List Char)
    (h : ∀ c, l.head? = some c → p c = false) : l.dropWhile p = l := by
  cases l with
  | nil => rfl
  | cons c rest =>
    have hc : p c = false := h c rfl
    simp [List.dropWhile_cons, hc]

theorem dropWhile_all (p : Char → Bool) (l : List Char)
    (h : ∀ c ∈ l, p c = true) : l.dropWhile p = [] := by
  have := dropWhile_append_all p l [] h
  simpa using this

/-- The method `trim` keeps exactly the text between the leading and the
trailing run of stripped characters. -/
theorem trimChars_core (lead core trail : List Char)
    (hlead : ∀ c ∈ lead, isTrimmed c = true) (htrail : ∀ c ∈ trail, isTrimmed c = true)
    (hhead : ∀ c, core.head? = some c → isTrimmed c = false)
    (hlast : ∀ c, core.getLast? = some c → isTrimmed c = false) :
    trimChars (lead ++ core ++ trail) = core := by
  unfold trimChars
  rw [List.append_assoc, dropWhile_append_all _ _ _ hlead]
  cases core with
  | nil =>
    rw [List.nil_append, dropWhile_all _ _ htrail]
    rfl
  | cons c rest =>
    rw [dropWhile_of_head _ (c :: rest ++ trail) (fun x hx => hhead x (by simpa using hx))]
    rw [List.reverse_append,
      dropWhile_append_all _ _ _ (fun x hx => htrail x (List.mem_reverse.1 hx)),
      dropWhile_of_head _ _ (fun x hx => hlast x (by rw [← List.head?_reverse]; exact hx)),
      List.reverse_reverse]

theorem isApplicableOf_true_iff (codeData : CodeData) :
    isApplicableOf codeData = true ↔
      ∃ e, codeData.explanation = some e ∧ applicableMarker.data <:+: e.data := by
  cases hexp : codeData.explanation with
  | none => simp [isApplicableOf, hexp]
  | some e =>
    rw [isApplicableOf_iff codeData e hexp]
    constructor
    · intro h
      exact ⟨e, rfl, h⟩
    · rintro ⟨e2, he, h⟩
      cases he
      exact h

/-- C8: for every answer, the merged entry is marked applicable exactly when the
explanation contains `**Applicable?** Yes`; when it does not, the selection is
left as it was; with a `custom_codes` list to push on, the entry built from the
answer is the one appended and, when applicable, its code is in `accepted` and
not in `denied`. When the first `**Reason**: ` of the explanation is followed by
a line, free of line terminators and ended by a line feed or by the end of the
text, that holds a non-blank text between stripped characters, the stored
explanation is that text. The characters stripped are the white space and line
terminator code points, and the group of the pattern stops at a line feed and
fails at any other line terminator. -/
theorem handleAddCode_parses_explanation (env : Env) (s : HomeState) (r : AnalysisResponse)
    (d : ResultData) (rid : String) (codeData : CodeData)
    (hnew : trim s.newCode ≠ "") (hr : s.result = some r) (hd : r.data = some d)
    (hrid : d.record_id = some rid) (hne : rid ≠ "")
    (hresp : env.postAddCustomCode s.newCode s.scenario rid =
      .ok { data := some { code_data := some codeData } }) :
    ((customEntry codeData).isApplicable = some true ↔
      ∃ e, codeData.explanation = some e ∧ applicableMarker.data <:+: e.data) ∧
    ((¬ ∃ e, codeData.explanation = some e ∧ applicableMarker.data <:+: e.data) →
      (handleAddCode env s).selectedCodes = s.selectedCodes) ∧
    (customCodesHasList d.subtopics_data = true →
      (∃ sd topic,
        subtopicsData (handleAddCode env s).result = some sd ∧
        objGet sd "custom_codes" = some topic ∧
        topic.specific_codes =
          some (customCodesBefore d.subtopics_data ++ [some (customEntry codeData)])) ∧
      ((∃ e, codeData.explanation = some e ∧ applicableMarker.data <:+: e.data) →
        codeData.code ∈ (handleAddCode env s).selectedCodes.accepted ∧
        codeData.code ∉ (handleAddCode env s).selectedCodes.denied)) ∧
    (∀ (e : String) (pre lead core trail rest : List Char),
      codeData.explanation = some e →
      e.data = pre ++ reasonMarker.data ++ (lead ++ core ++ trail) ++ rest →
      includesChars (pre ++ reasonMarker.data.dropLast) reasonMarker.data = false →
      (∀ c ∈ lead ++ core ++ trail, isLineTerminator c = false) →
      (rest = [] ∨ ∃ tail, rest = Char.ofNat 10 :: tail) →
      (∀ c ∈ lead, isTrimmed c = true) →
      (∀ c ∈ trail, isTrimmed c = true) →
      core.head?.map isTrimmed = some false →
      core.getLast?.map isTrimmed = some false →
      (customEntry codeData).explanation = some (String.mk core)) ∧
    trim (String.mk (ecmaWhiteSpace ++ "fits criteria".data ++ ecmaWhiteSpace)) =
      "fits criteria" ∧
    trim "\u200bfits\u0085" = "\u200bfits\u0085" ∧
    reasonMatch
      "**Reason**: a\rb **Reason**: c\u2028 **Reason**: d\u2029 **Reason**: second \nrest" =
      some "second " ∧
    reasonMatch "**Reason**: to the end" = some "to the end" ∧
    reasonMatch "**reason**: lower case" = none := by
  have happ := isApplicableOf_true_iff codeData
  refine ⟨?_, ?_, ?_, ?_, ?_, ?_, ?_, ?_, ?_⟩
  · rw [← happ]
    simp [customEntry]
  · intro hnot
    have hfalse : isApplicableOf codeData = false := by
      cases hv : isApplicableOf codeData with
      | false => rfl
      | true => exact absurd (happ.1 hv) hnot
    cases hp : pushCustomCode d.subtopics_data (customEntry codeData) with
    | none =>
      rw [handleAddCode_push_fails env s r d rid codeData hnew hr hd hrid hne hresp hp]
    | some sd =>
      rw [handleAddCode_merged env s r d rid codeData sd hnew hr hd hrid hne hresp hp]
      simp only [hfalse, Bool.false_eq_true, if_false]
  · intro hlist
    obtain ⟨sd, topic, hpush, hget, hcodes, _⟩ :=
      pushCustomCode_of_hasList d.subtopics_data (customEntry codeData) hlist
    have hmerge :=
      handleAddCode_merged env s r d rid codeData sd hnew hr hd hrid hne hresp hpush
    refine ⟨⟨sd, topic, ?_, hget, hcodes⟩, ?_⟩
    · rw [hmerge]
      rfl
    · intro hin
      have hne2 : ("accept" : String) ≠ "deny" := by decide
      rw [hmerge]
      simp only [happ.2 hin, if_true]
      constructor
      · rw [handleCodeSelection_accepted]; simp
      · rw [handleCodeSelection_denied]; simp [hne2]
  · intro e pre lead core trail rest hexp hsplit hfirst hline hrest hlead htrail hhead hlast
    have hhead2 : ∀ c, core.head? = some c → isTrimmed c = false := by
      intro c hc
      rw [hc] at hhead
      simpa using hhead
    have hlast2 : ∀ c, core.getLast? = some c → isTrimmed c = false := by
      intro c hc
      rw [hc] at hlast
      simpa using hlast
    have hcore : core ≠ [] := by
      intro hnil
      rw [hnil] at hhead
      simp at hhead
    have hreason := reasonOf_line codeData e pre (lead ++ core ++ trail) rest hexp hsplit hfirst
      hline hrest
    rw [trimChars_core lead core trail hlead htrail hhead2 hlast2] at hreason
    have hnonempty : String.mk core ≠ "" := string_ne_empty_of_data rfl hcore
    simp only [customEntry, hreason, hnonempty, ne_eq, not_false_eq_true, if_true]
  · decide
  · decide
  · decide
  · decide
  · decide

/-- C8, on an answer with text around the verdict and blanks around the reason:
the entry is marked applicable, the stored explanation is `fits criteria`, and
the code, denied beforehand, ends in `accepted` only. -/
theorem handleAddCode_parses_explanation_witness :
    (customEntry paddedCodeData).isApplicable = some true ∧
    (customEntry paddedCodeData).explanation = some "fits criteria" ∧
    ("D9999" ∈ (handleAddCode (replyEnv paddedCodeData)
        (addCodeState scenarioResult)).selectedCodes.accepted ∧
      "D9999" ∉ (handleAddCode (replyEnv paddedCodeData)
        (addCodeState scenarioResult)).selectedCodes.denied) :=
  ⟨(handleAddCode_parses_explanation (replyEnv paddedCodeData) (addCodeState scenarioResult)
      scenarioResult _ "rec-1" paddedCodeData (by decide) rfl rfl rfl (by decide) rfl).1.2
      ⟨_, rfl, (includesChars_iff _ _).1 (by decide)⟩,
   (handleAddCode_parses_explanation (replyEnv paddedCodeData) (addCodeState scenarioResult)
      scenarioResult _ "rec-1" paddedCodeData (by decide) rfl rfl rfl (by decide) rfl).2.2.2.1
      "Verdict: **Applicable?** Yes\n**Reason**:  fits criteria \t\nSee D0150."
      "Verdict: **Applicable?** Yes\n".data " ".data "fits criteria".data " \t".data
      "\nSee D0150.".data rfl (by decide) (by decide) (by decide)
      (Or.inr ⟨"See D0150.".data, by decide⟩) (by decide) (by decide) (by decide) (by decide),
   ((handleAddCode_parses_explanation (replyEnv paddedCodeData) (addCodeState scenarioResult)
      scenarioResult _ "rec-1" paddedCodeData (by decide) rfl rfl rfl (by decide) rfl).2.2.1
      (by decide)).2 ⟨_, rfl, (includesChars_iff _ _).1 (by decide)⟩⟩

/-- C8, the claim as worded fails: an explanation that contains `Applicable? Yes`
and `Reason: fits criteria` without the emphasis marks yields an entry marked
not applicable, with the explanation stored unchanged and the code not
accepted. -/
theorem handleAddCode_plain_words_not_applicable :
    includes "Applicable? Yes\nReason: fits criteria" "Applicable? Yes" = true ∧
    includes "Applicable? Yes\nReason: fits criteria" "Reason: fits criteria" = true ∧
    (customEntry plainWordsCodeData).isApplicable = some false ∧
    (customEntry plainWordsCodeData).explanation =
      some "Applicable? Yes\nReason: fits criteria" ∧
    "D9999" ∉ (handleAddCode (replyEnv plainWordsCodeData)
      (addCodeState scenarioResult)).selectedCodes.accepted := by
  decide

/-! ## Replacing and discarding the result -/

/-- C9, the answer path: after a session in which codes were accepted, the
successful answer submission replaces the result and the selection still holds
the codes accepted for the previous result. -/
theorem handleQuestionerSuccess_keeps_selection :
    (answeredSession.foldl step HomeState.initial).result = some scenarioResult ∧
    (answeredSession.foldl step HomeState.initial).selectedCodes =
      { accepted := ["D0150", "D9999"], denied := [] } := by
  decide

/-- C10: when final submission is invoked on a result with `data`, a successful
store-code-status call leaves the result null, the scenario empty and both
lists empty; a failed call leaves every state but the error text and the
submitting flag as it was, the error text being the message of the failure, and
a repeated submission that succeeds then resets the page as the first would
have. -/
theorem handleSubmitCodes_outcome (env : Env) (s : HomeState) (r : AnalysisResponse)
    (d : ResultData) (hr : s.result = some r) (hd : r.data = some d) :
    (env.postStoreCodeStatus s.selectedCodes d.record_id = .ok () →
      handleSubmitCodes env s =
        { s with scenario := "", result := none,
                 selectedCodes := { accepted := [], denied := [] }, submitting := false }) ∧
    (∀ err, env.postStoreCodeStatus s.selectedCodes d.record_id = .error err →
      handleSubmitCodes env s =
        { s with
          error := some (orElse (rethrow err "Failed to submit selected codes").message
            "Failed to submit selected codes"),
          submitting := false } ∧
      ∀ env2 : Env, env2.postStoreCodeStatus s.selectedCodes d.record_id = .ok () →
        (handleSubmitCodes env2 (handleSubmitCodes env s)).result = none ∧
        (handleSubmitCodes env2 (handleSubmitCodes env s)).scenario = "" ∧
        (handleSubmitCodes env2 (handleSubmitCodes env s)).selectedCodes =
          { accepted := [], denied := [] }) := by
  have hfail : ∀ err, env.postStoreCodeStatus s.selectedCodes d.record_id = .error err →
      handleSubmitCodes env s =
        { s with
          error := some (orElse (rethrow err "Failed to submit selected codes").message
            "Failed to submit selected codes"),
          submitting := false } := by
    intro err herr
    unfold handleSubmitCodes submitSelectedCodes
    simp only [hr, hd, herr]
  refine ⟨?_, ?_⟩
  · intro hok
    unfold handleSubmitCodes submitSelectedCodes
    simp only [hr, hd, hok]
  · intro err herr
    refine ⟨hfail err herr, ?_⟩
    intro env2 hok
    rw [hfail err herr]
    unfold handleSubmitCodes submitSelectedCodes
    simp only [hr, hd, hok]
    exact ⟨trivial, trivial, trivial⟩

/-- C10, on the triaged scenario result: with a backend that accepts the
submission the page is reset, with an unreachable backend only the error text
changes. -/
theorem handleSubmitCodes_outcome_witness :
    handleSubmitCodes (answeringEnv scenarioResult applicableCodeData) triagedState =
      { triagedState with scenario := "", result := none,
                          selectedCodes := { accepted := [], denied := [] } } ∧
    handleSubmitCodes (replyEnv applicableCodeData) triagedState =
      { triagedState with error := some "Failed to submit selected codes" } :=
  ⟨(handleSubmitCodes_outcome (answeringEnv scenarioResult applicableCodeData) triagedState
      scenarioResult _ rfl rfl).1 rfl,
   ((handleSubmitCodes_outcome (replyEnv applicableCodeData) triagedState
      scenarioResult _ rfl rfl).2 networkError rfl).1⟩

/-! ## Selection: frame, duplicates and idempotence -/

theorem selectedCodes_eq {a b : SelectedCodes} (h1 : a.accepted = b.accepted)
    (h2 : a.denied = b.denied) : a = b := by
  cases a
  cases b
  simp only [SelectedCodes.mk.injEq]
  exact ⟨h1, h2⟩

theorem filter_ne_idem (l : List String) (code : String) :
    (l.filter (fun c => c != code)).filter (fun c => c != code) =
      l.filter (fun c => c != code) := by
  rw [List.filter_filter]
  congr 1
  funext c
  simp

theorem filter_ne_tail (code : String) (b : Bool) :
    (if b then [code] else []).filter (fun c => c != code) = [] := by
  cases b <;> simp

theorem handleCodeSelection_idem (prev : SelectedCodes) (code action : String) :
    handleCodeSelection (handleCodeSelection prev code action) code action =
      handleCodeSelection prev code action := by
  apply selectedCodes_eq
  · rw [handleCodeSelection_accepted, handleCodeSelection_accepted, List.filter_append,
      filter_ne_idem]
    by_cases h : action = "accept" <;> simp [h]
  · rw [handleCodeSelection_denied, handleCodeSelection_denied, List.filter_append,
      filter_ne_idem]
    by_cases h : action = "deny" <;> simp [h]

theorem nodup_filter_append (l : List String) (code : String) (h : l.Nodup) (b : Bool) :
    (l.filter (fun c => c != code) ++ (if b then [code] else [])).Nodup := by
  cases b
  · simpa using h.filter _
  · rw [List.nodup_append]
    refine ⟨h.filter _, by simp, ?_⟩
    intro c hc hc2
    rw [mem_filter_ne] at hc
    simp only [if_true, List.mem_singleton] at hc2
    exact hc.2 hc2

/-- Neither list holds a code twice. -/
theorem nodup_handleCodeSelection {prev : SelectedCodes}
    (h : prev.accepted.Nodup ∧ prev.denied.Nodup) (code action : String) :
    (handleCodeSelection prev code action).accepted.Nodup ∧
      (handleCodeSelection prev code action).denied.Nodup := by
  rw [handleCodeSelection_accepted, handleCodeSelection_denied]
  constructor
  · have := nodup_filter_append prev.accepted code h.1 (decide (action = "accept"))
    simpa using this
  · have := nodup_filter_append prev.denied code h.2 (decide (action = "deny"))
    simpa using this

theorem nodup_step {s : HomeState}
    (h : s.selectedCodes.accepted.Nodup ∧ s.selectedCodes.denied.Nodup) (e : Event) :
    (step s e).selectedCodes.accepted.Nodup ∧ (step s e).selectedCodes.denied.Nodup := by
  have hempty : ([] : List String).Nodup ∧ ([] : List String).Nodup := by simp
  cases e with
  | setScenario text => exact h
  | setNewCode text => exact h
  | select code action => exact nodup_handleCodeSelection h code action
  | analyze env =>
    show (handleSubmit env s).selectedCodes.accepted.Nodup ∧
      (handleSubmit env s).selectedCodes.denied.Nodup
    rw [handleSubmit_selectedCodes]
    exact hempty
  | submitCodes env =>
    show (handleSubmitCodes env s).selectedCodes.accepted.Nodup ∧
      (handleSubmitCodes env s).selectedCodes.denied.Nodup
    rcases handleSubmitCodes_selectedCodes env s with h1 | h1
    · rw [h1]; exact hempty
    · rw [h1]; exact h
  | addCode env =>
    show (handleAddCode env s).selectedCodes.accepted.Nodup ∧
      (handleAddCode env s).selectedCodes.denied.Nodup
    rcases handleAddCode_selectedCodes env s with h1 | ⟨code, h1⟩
    · rw [h1]; exact h
    · rw [h1]; exact nodup_handleCodeSelection h code "accept"
  | questionerSuccess response =>
    show (handleQuestionerSuccess s response).selectedCodes.accepted.Nodup ∧
      (handleQuestionerSuccess s response).selectedCodes.denied.Nodup
    rw [handleQuestionerSuccess_selectedCodes]
    exact h

/-- C18: for a code `other` different from the selected `code` and every action,
`handleCodeSelection(code, action)` keeps the membership of `other` in both
lists and the order of the codes other than `code` in both lists; with
`'accept'` (`'deny'`) the code is last on `accepted` (`denied`), and with any
other action it is on neither list and nothing else changes. -/
theorem handleCodeSelection_frame (prev : SelectedCodes) (code other action : String)
    (h : other ≠ code) :
    (other ∈ (handleCodeSelection prev code action).accepted ↔ other ∈ prev.accepted) ∧
    (other ∈ (handleCodeSelection prev code action).denied ↔ other ∈ prev.denied) ∧
    (handleCodeSelection prev code action).accepted.filter (fun c => c != code) =
      prev.accepted.filter (fun c => c != code) ∧
    (handleCodeSelection prev code action).denied.filter (fun c => c != code) =
      prev.denied.filter (fun c => c != code) ∧
    (action = "accept" →
      (handleCodeSelection prev code action).accepted =
        prev.accepted.filter (fun c => c != code) ++ [code]) ∧
    (action = "deny" →
      (handleCodeSelection prev code action).denied =
        prev.denied.filter (fun c => c != code) ++ [code]) ∧
    (action ≠ "accept" → action ≠ "deny" →
      code ∉ (handleCodeSelection prev code action).accepted ∧
      code ∉ (handleCodeSelection prev code action).denied ∧
      (handleCodeSelection prev code action).accepted =
        prev.accepted.filter (fun c => c != code) ∧
      (handleCodeSelection prev code action).denied =
        prev.denied.filter (fun c => c != code)) := by
  rw [handleCodeSelection_accepted, handleCodeSelection_denied]
  refine ⟨?_, ?_, ?_, ?_, ?_, ?_, ?_⟩
  · rw [List.mem_append, mem_filter_ne]
    constructor
    · rintro (h1 | h1)
      · exact h1.1
      · split at h1 <;> simp at h1
        exact absurd h1 h
    · intro h1
      exact Or.inl ⟨h1, h⟩
  · rw [List.mem_append, mem_filter_ne]
    constructor
    · rintro (h1 | h1)
      · exact h1.1
      · split at h1 <;> simp at h1
        exact absurd h1 h
    · intro h1
      exact Or.inl ⟨h1, h⟩
  · rw [List.filter_append, filter_ne_idem]
    have := filter_ne_tail code (decide (action = "accept"))
    simp only [decide_eq_true_eq] at this
    rw [this, List.append_nil]
  · rw [List.filter_append, filter_ne_idem]
    have := filter_ne_tail code (decide (action = "deny"))
    simp only [decide_eq_true_eq] at this
    rw [this, List.append_nil]
  · intro ha
    rw [if_pos ha]
  · intro hd
    rw [if_pos hd]
  · intro ha hd
    rw [if_neg ha, if_neg hd, List.append_nil, List.append_nil]
    refine ⟨?_, ?_, rfl, rfl⟩
    · rw [mem_filter_ne]; exact fun h1 => h1.2 rfl
    · rw [mem_filter_ne]; exact fun h1 => h1.2 rfl

/-- C18, denying `D0150` in a selection that holds `D1206` after it. -/
theorem handleCodeSelection_frame_witness :
    ("D1206" ∈ (handleCodeSelection mixedSelection "D0150" "deny").accepted ↔
      "D1206" ∈ mixedSelection.accepted) ∧
    ("D1206" ∈ (handleCodeSelection mixedSelection "D0150" "deny").denied ↔
      "D1206" ∈ mixedSelection.denied) ∧
    (handleCodeSelection mixedSelection "D0150" "deny").accepted.filter
        (fun c => c != "D0150") =
      mixedSelection.accepted.filter (fun c => c != "D0150") ∧
    (handleCodeSelection mixedSelection "D0150" "deny").denied.filter
        (fun c => c != "D0150") =
      mixedSelection.denied.filter (fun c => c != "D0150") ∧
    (("deny" : String) = "accept" →
      (handleCodeSelection mixedSelection "D0150" "deny").accepted =
        mixedSelection.accepted.filter (fun c => c != "D0150") ++ ["D0150"]) ∧
    (("deny" : String) = "deny" →
      (handleCodeSelection mixedSelection "D0150" "deny").denied =
        mixedSelection.denied.filter (fun c => c != "D0150") ++ ["D0150"]) ∧
    (("deny" : String) ≠ "accept" → ("deny" : String) ≠ "deny" →
      "D0150" ∉ (handleCodeSelection mixedSelection "D0150" "deny").accepted ∧
      "D0150" ∉ (handleCodeSelection mixedSelection "D0150" "deny").denied ∧
      (handleCodeSelection mixedSelection "D0150" "deny").accepted =
        mixedSelection.accepted.filter (fun c => c != "D0150") ∧
      (handleCodeSelection mixedSelection "D0150" "deny").denied =
        mixedSelection.denied.filter (fun c => c != "D0150")) :=
  handleCodeSelection_frame mixedSelection "D0150" "D1206" "deny" (by decide)

/-- C19: in every reachable state neither `accepted` nor `denied` holds a code
twice, and applying `handleCodeSelection` twice with the same code and action
gives the same lists as applying it once. -/
theorem reachable_nodup_idempotent (s : HomeState) (h : Reachable s) (code action : String) :
    s.selectedCodes.accepted.Nodup ∧ s.selectedCodes.denied.Nodup ∧
    handleCodeSelection (handleCodeSelection s.selectedCodes code action) code action =
      handleCodeSelection s.selectedCodes code action := by
  have key : s.selectedCodes.accepted.Nodup ∧ s.selectedCodes.denied.Nodup := by
    induction h with
    | init => exact ⟨List.nodup_nil, List.nodup_nil⟩
    | step e _ ih => exact nodup_step ih e
  exact ⟨key.1, key.2, handleCodeSelection_idem s.selectedCodes code action⟩

/-- C19, at the state reached by accepting `D0150` twice and denying `D1206`. -/
theorem reachable_nodup_idempotent_witness :
    (step (step (step HomeState.initial (.select "D0150" "accept")) (.select "D0150" "accept"))
      (.select "D1206" "deny")).selectedCodes.accepted.Nodup ∧
    (step (step (step HomeState.initial (.select "D0150" "accept")) (.select "D0150" "accept"))
      (.select "D1206" "deny")).selectedCodes.denied.Nodup ∧
    handleCodeSelection (handleCodeSelection
        (step (step (step HomeState.initial (.select "D0150" "accept"))
          (.select "D0150" "accept")) (.select "D1206" "deny")).selectedCodes
        "D0150" "accept") "D0150" "accept" =
      handleCodeSelection
        (step (step (step HomeState.initial (.select "D0150" "accept"))
          (.select "D0150" "accept")) (.select "D1206" "deny")).selectedCodes
        "D0150" "accept" :=
  reachable_nodup_idempotent _
    (Reachable.step _ (Reachable.step _ (Reachable.step _ Reachable.init))) "D0150" "accept"

/-! ## The gate and the remaining count agree -/

theorem trackedCodes_ne_nil_iff (result : Option AnalysisResponse) :
    Spec.trackedCodes result ≠ [] ↔
      ∃ te ∈ Spec.codeEntries result, Spec.isTracked te.1 te.2 = true := by
  constructor
  · intro hne
    obtain ⟨c, hc⟩ := List.exists_mem_of_ne_nil _ hne
    obtain ⟨te, h1, h2, _⟩ := (mem_trackedCodes result c).1 hc
    exact ⟨te, h1, h2⟩
  · rintro ⟨te, hte, htr⟩
    obtain ⟨c, hc⟩ := isTracked_code htr
    exact List.ne_nil_of_mem ((mem_trackedCodes result c).2 ⟨te, hte, htr, hc⟩)

theorem trackedCodes_all_accepted_iff (result : Option AnalysisResponse) (sc : SelectedCodes) :
    (∀ c ∈ Spec.trackedCodes result, c ∈ sc.accepted) ↔
      ∀ te ∈ Spec.codeEntries result,
        ¬ (Spec.isTracked te.1 te.2 = true ∧ (!Spec.isAccepted sc te.2) = true) := by
  constructor
  · intro hall te hte hbad
    simp only [Bool.not_eq_true'] at hbad
    obtain ⟨htr, hacc⟩ := hbad
    obtain ⟨c, hc⟩ := isTracked_code htr
    have hin := hall c ((mem_trackedCodes result c).2 ⟨te, hte, htr, hc⟩)
    rw [(isAccepted_iff sc te.2 c hc).2 hin] at hacc
    exact absurd hacc (by decide)
  · intro hall c hc
    obtain ⟨te, hte, htr, hcode⟩ := (mem_trackedCodes result c).1 hc
    have hno := hall te hte
    rw [← isAccepted_iff sc te.2 c hcode]
    cases hacc : Spec.isAccepted sc te.2 with
    | true => rfl
    | false =>
      exact absurd (by simp [htr, hacc]) hno

/-- C17: `areAllCodesSelected()` is true if and only if the number of tracked
code entries is positive and `getRemainingCodeCount()` is 0. -/
theorem areAllCodesSelected_iff_none_remaining (result : Option AnalysisResponse)
    (sc : SelectedCodes) :
    areAllCodesSelected result sc = true ↔
      0 < (Spec.codeEntries result).countP (fun te => Spec.isTracked te.1 te.2) ∧
      getRemainingCodeCount result sc = 0 := by
  rw [areAllCodesSelected_eq, getRemainingCodeCount_eq]
  simp only [Bool.and_eq_true, decide_eq_true_eq, List.all_eq_true, List.length_pos, ne_eq,
    List.countP_pos_iff, Int.natCast_eq_zero, List.countP_eq_zero]
  rw [← trackedCodes_all_accepted_iff result sc, ← trackedCodes_ne_nil_iff result]
  constructor
  · rintro ⟨h1, h2⟩
    exact ⟨h1, fun c hc => by simpa using h2 c hc⟩
  · rintro ⟨h1, h2⟩
    exact ⟨h1, fun c hc => by simpa using h2 c hc⟩

/-! ## Merging a code that is not applicable -/

theorem codeEntries_eq_topicEntries (result : Option AnalysisResponse) :
    Spec.codeEntries result = Spec.topicEntries ((subtopicsData result).getD []) := by
  unfold Spec.codeEntries Spec.topicEntries
  cases subtopicsData result <;> rfl

theorem topicEntries_cons (p : String × TopicData) (rest : List (String × TopicData)) :
    Spec.topicEntries (p :: rest) =
      ((p.2.specific_codes.getD []).filterMap id).map (fun e => (p.1, e)) ++
        Spec.topicEntries rest := by
  simp [Spec.topicEntries]

theorem topicEntries_append (a b : List (String × TopicData)) :
    Spec.topicEntries (a ++ b) = Spec.topicEntries a ++ Spec.topicEntries b := by
  simp [Spec.topicEntries]

theorem filter_topicEntries_objSet (P : String × CodeEntry → Bool) (e : CodeEntry)
    (hP : P ("custom_codes", e) = false) (sd : List (String × TopicData)) (topic : TopicData)
    (codes : List (Option CodeEntry)) (hg : objGet sd "custom_codes" = some topic)
    (hc : topic.specific_codes = some codes) :
    (Spec.topicEntries (objSet sd "custom_codes"
        { topic with specific_codes := some (codes ++ [some e]) })).filter P =
      (Spec.topicEntries sd).filter P := by
  induction sd with
  | nil => simp [objGet] at hg
  | cons p rest ih =>
    obtain ⟨k, w⟩ := p
    by_cases hk : k = "custom_codes"
    · subst hk
      simp only [objGet, if_true, Option.some.injEq] at hg
      subst hg
      simp only [objSet, if_true, topicEntries_cons, hc, Option.getD_some, List.filterMap_append,
        List.map_append, List.filter_append]
      simp [hP]
    · simp only [objGet, hk, if_false] at hg
      simp only [objSet, hk, if_false, topicEntries_cons, List.filter_append, ih hg]

theorem filter_topicEntries_push (P : String × CodeEntry → Bool) (e : CodeEntry)
    (hP : P ("custom_codes", e) = false) (subtopics : Option (List (String × TopicData)))
    (sd : List (String × TopicData)) (hpush : pushCustomCode subtopics e = some sd) :
    (Spec.topicEntries sd).filter P = (Spec.topicEntries (subtopics.getD [])).filter P := by
  cases hg : objGet (subtopics.getD []) "custom_codes" with
  | none =>
    rw [pushCustomCode_absent subtopics e hg] at hpush
    simp only [Option.some.injEq] at hpush
    rw [← hpush, topicEntries_append, List.filter_append]
    simp [Spec.topicEntries, hP]
  | some topic =>
    cases hc : topic.specific_codes with
    | none =>
      rw [pushCustomCode_fails subtopics e topic hg hc] at hpush
      exact absurd hpush (by simp)
    | some codes =>
      rw [pushCustomCode_present subtopics e topic codes hg hc] at hpush
      simp only [Option.some.injEq] at hpush
      rw [← hpush]
      exact filter_topicEntries_objSet P e hP _ topic codes hg hc

theorem isTracked_customEntry_false (codeData : CodeData)
    (h : isApplicableOf codeData = false) :
    Spec.isTracked "custom_codes" (customEntry codeData) = false := by
  simp [Spec.isTracked, Spec.isNonApplicableCustom, customEntry, h]

theorem filter_codeEntries_merged (P : String × CodeEntry → Bool) (e : CodeEntry)
    (hP : P ("custom_codes", e) = false) (r : AnalysisResponse) (d : ResultData)
    (sd : List (String × TopicData)) (inspector : Option InspectorResults)
    (hd : r.data = some d) (hpush : pushCustomCode d.subtopics_data e = some sd) :
    (Spec.codeEntries (some { r with data := some { d with
        subtopics_data := some sd, inspector_results := inspector } })).filter P =
      (Spec.codeEntries (some r)).filter P := by
  rw [codeEntries_eq_topicEntries, codeEntries_eq_topicEntries]
  have h1 : subtopicsData (some { r with data := some { d with
      subtopics_data := some sd, inspector_results := inspector } }) = some sd := rfl
  have h2 : subtopicsData (some r) = d.subtopics_data := by simp [subtopicsData, hd]
  rw [h1, h2, Option.getD_some]
  exact filter_topicEntries_push P e hP d.subtopics_data sd hpush

/-- C16: merging a custom code that is judged not applicable changes neither the
value of `areAllCodesSelected()` nor the value of `getRemainingCodeCount()`, and
leaves `accepted` and `denied` as they were. -/
theorem handleAddCode_not_applicable_neutral (env : Env) (s : HomeState)
    (r : AnalysisResponse) (d : ResultData) (rid : String) (codeData : CodeData)
    (hnew : trim s.newCode ≠ "") (hr : s.result = some r) (hd : r.data = some d)
    (hrid : d.record_id = some rid) (hne : rid ≠ "")
    (hresp : env.postAddCustomCode s.newCode s.scenario rid =
      .ok { data := some { code_data := some codeData } })
    (hnot : isApplicableOf codeData = false) :
    areAllCodesSelected (handleAddCode env s).result (handleAddCode env s).selectedCodes =
      areAllCodesSelected s.result s.selectedCodes ∧
    getRemainingCodeCount (handleAddCode env s).result (handleAddCode env s).selectedCodes =
      getRemainingCodeCount s.result s.selectedCodes ∧
    (handleAddCode env s).selectedCodes = s.selectedCodes := by
  cases hp : pushCustomCode d.subtopics_data (customEntry codeData) with
  | none =>
    rw [handleAddCode_push_fails env s r d rid codeData hnew hr hd hrid hne hresp hp]
    exact ⟨rfl, rfl, rfl⟩
  | some sd =>
    rw [handleAddCode_merged env s r d rid codeData sd hnew hr hd hrid hne hresp hp]
    simp only [hnot, Bool.false_eq_true, if_false]
    refine ⟨?_, ?_, trivial⟩
    · rw [areAllCodesSelected_eq, areAllCodesSelected_eq, hr]
      unfold Spec.trackedCodes
      rw [filter_codeEntries_merged _ (customEntry codeData)
        (isTracked_customEntry_false codeData hnot) r d sd _ hd hp]
    · rw [getRemainingCodeCount_eq, getRemainingCodeCount_eq, hr, List.countP_eq_length_filter,
        List.countP_eq_length_filter]
      rw [filter_codeEntries_merged _ (customEntry codeData)
        (by simp [isTracked_customEntry_false codeData hnot]) r d sd _ hd hp]

/-- C16, merging a code judged not applicable into the scenario result. -/
theorem handleAddCode_not_applicable_neutral_witness :
    areAllCodesSelected
        (handleAddCode (replyEnv notApplicableCodeData) (addCodeState scenarioResult)).result
        (handleAddCode (replyEnv notApplicableCodeData)
          (addCodeState scenarioResult)).selectedCodes =
      areAllCodesSelected (addCodeState scenarioResult).result
        (addCodeState scenarioResult).selectedCodes ∧
    getRemainingCodeCount
        (handleAddCode (replyEnv notApplicableCodeData) (addCodeState scenarioResult)).result
        (handleAddCode (replyEnv notApplicableCodeData)
          (addCodeState scenarioResult)).selectedCodes =
      getRemainingCodeCount (addCodeState scenarioResult).result
        (addCodeState scenarioResult).selectedCodes ∧
    (handleAddCode (replyEnv notApplicableCodeData) (addCodeState scenarioResult)).selectedCodes =
      (addCodeState scenarioResult).selectedCodes :=
  handleAddCode_not_applicable_neutral (replyEnv notApplicableCodeData)
    (addCodeState scenarioResult) scenarioResult _ "rec-1" notApplicableCodeData
    (by decide) rfl rfl rfl (by decide) rfl (by decide)

/-! ## Explanations the patterns do not match -/

theorem isApplicableOf_unmatched (codeData : CodeData)
    (hexp : codeData.explanation = none ∨ codeData.explanation = some "" ∨
      ∃ e, codeData.explanation = some e ∧ ¬ applicableMarker.data <:+: e.data ∧
        reasonMatch e = none) :
    isApplicableOf codeData = false := by
  rcases hexp with h | h | ⟨e, h, hno, _⟩
  · simp [isApplicableOf, h]
  · simp [isApplicableOf, h]
  · cases hv : isApplicableOf codeData with
    | false => rfl
    | true => exact absurd ((isApplicableOf_iff codeData e h).1 hv) hno

theorem reasonOf_unmatched (codeData : CodeData)
    (hexp : codeData.explanation = none ∨ codeData.explanation = some "" ∨
      ∃ e, codeData.explanation = some e ∧ ¬ applicableMarker.data <:+: e.data ∧
        reasonMatch e = none) :
    reasonOf codeData = "" := by
  rcases hexp with h | h | ⟨e, h, _, hno⟩
  · simp [reasonOf, h]
  · simp [reasonOf, h]
  · unfold reasonOf
    simp only [h, hno]
    split <;> rfl

/-- C15: when the explanation of the answer is missing, empty, or matches
neither the applicability text nor the reason pattern, the merged entry is
marked not applicable, keeps the explanation as it came, takes the doubt of the
answer or `None` when that is missing or empty, and the code is not
auto-accepted; with a `custom_codes` list to push on no error is reported and
this entry is the one appended. -/
theorem handleAddCode_unmatched_explanation (env : Env) (s : HomeState)
    (r : AnalysisResponse) (d : ResultData) (rid : String) (codeData : CodeData)
    (hnew : trim s.newCode ≠ "") (hr : s.result = some r) (hd : r.data = some d)
    (hrid : d.record_id = some rid) (hne : rid ≠ "")
    (hresp : env.postAddCustomCode s.newCode s.scenario rid =
      .ok { data := some { code_data := some codeData } })
    (hexp : codeData.explanation = none ∨ codeData.explanation = some "" ∨
      ∃ e, codeData.explanation = some e ∧ ¬ applicableMarker.data <:+: e.data ∧
        reasonMatch e = none) :
    customEntry codeData =
      { code := some codeData.code, explanation := codeData.explanation,
        doubt := some (orElse codeData.doubt "None"), isApplicable := some false } ∧
    (codeData.doubt = none ∨ codeData.doubt = some "" →
      (customEntry codeData).doubt = some "None") ∧
    (handleAddCode env s).selectedCodes = s.selectedCodes ∧
    (customCodesHasList d.subtopics_data = true →
      (handleAddCode env s).error = none ∧
      ∃ sd topic,
        subtopicsData (handleAddCode env s).result = some sd ∧
        objGet sd "custom_codes" = some topic ∧
        topic.specific_codes =
          some (customCodesBefore d.subtopics_data ++ [some (customEntry codeData)])) := by
  have hnot := isApplicableOf_unmatched codeData hexp
  have hreason := reasonOf_unmatched codeData hexp
  refine ⟨?_, ?_, ?_, ?_⟩
  · simp [customEntry, hnot, hreason]
  · rintro (h | h) <;> simp [customEntry, orElse, h]
  · cases hp : pushCustomCode d.subtopics_data (customEntry codeData) with
    | none =>
      rw [handleAddCode_push_fails env s r d rid codeData hnew hr hd hrid hne hresp hp]
    | some sd =>
      rw [handleAddCode_merged env s r d rid codeData sd hnew hr hd hrid hne hresp hp]
      simp only [hnot, Bool.false_eq_true, if_false]
  · intro hlist
    obtain ⟨sd, topic, hpush, hget, hcodes, _⟩ :=
      pushCustomCode_of_hasList d.subtopics_data (customEntry codeData) hlist
    rw [handleAddCode_merged env s r d rid codeData sd hnew hr hd hrid hne hresp hpush]
    exact ⟨rfl, sd, topic, rfl, hget, hcodes⟩

/-- C15, on an answer worded without the emphasis marks and without a doubt. -/
theorem handleAddCode_unmatched_explanation_witness :
    customEntry plainWordsCodeData =
      { code := some "D9999", explanation := some "Applicable? Yes\nReason: fits criteria",
        doubt := some (orElse none "None"), isApplicable := some false } ∧
    ((none : Option String) = none ∨ (none : Option String) = some "" →
      (customEntry plainWordsCodeData).doubt = some "None") ∧
    (handleAddCode (replyEnv plainWordsCodeData) (addCodeState scenarioResult)).selectedCodes =
      (addCodeState scenarioResult).selectedCodes ∧
    (customCodesHasList (subtopicsData (some scenarioResult)) = true →
      (handleAddCode (replyEnv plainWordsCodeData) (addCodeState scenarioResult)).error = none ∧
      ∃ sd topic,
        subtopicsData (handleAddCode (replyEnv plainWordsCodeData)
          (addCodeState scenarioResult)).result = some sd ∧
        objGet sd "custom_codes" = some topic ∧
        topic.specific_codes =
          some (customCodesBefore (subtopicsData (some scenarioResult)) ++
            [some (customEntry plainWordsCodeData)])) :=
  handleAddCode_unmatched_explanation (replyEnv plainWordsCodeData)
    (addCodeState scenarioResult) scenarioResult _ "rec-1" plainWordsCodeData
    (by decide) rfl rfl rfl (by decide) rfl
    (Or.inr (Or.inr ⟨"Applicable? Yes\nReason: fits criteria", rfl,
      by rw [← includesChars_iff]; decide, by decide⟩))

/-! ## Base URL -/

/-- C14: `getBaseUrl` returns `https://python.adamtechnologies.in` when the window
hostname is exactly `automed.adamtechnologies.in`; otherwise it returns
`VITE_API_URL` when that is set and non-empty, and `http://localhost:8000` when
it is not. -/
theorem getBaseUrl_spec (hostname viteApiUrl : Option String) :
    (hostname = some "automed.adamtechnologies.in" →
      getBaseUrl hostname viteApiUrl = "https://python.adamtechnologies.in") ∧
    (hostname ≠ some "automed.adamtechnologies.in" →
      ∀ url, viteApiUrl = some url → url ≠ "" → getBaseUrl hostname viteApiUrl = url) ∧
    (hostname ≠ some "automed.adamtechnologies.in" →
      viteApiUrl = none ∨ viteApiUrl = some "" →
      getBaseUrl hostname viteApiUrl = "http://localhost:8000") := by
  have hfall : hostname ≠ some "automed.adamtechnologies.in" →
      getBaseUrl hostname viteApiUrl = orElse viteApiUrl "http://localhost:8000" := by
    intro hne
    unfold getBaseUrl
    cases hostname with
    | none => rfl
    | some h =>
      have hh : h ≠ "automed.adamtechnologies.in" := fun e => hne (by rw [e])
      simp [hh]
  refine ⟨?_, ?_, ?_⟩
  · intro h
    rw [h]
    rfl
  · intro hne url hurl hnonempty
    rw [hfall hne, hurl]
    simp [orElse, hnonempty]
  · intro hne hunset
    rw [hfall hne]
    rcases hunset with h | h <;> simp [orElse, h]

/-- C14, on the production host, on a staging host with a configured URL, and
without a window and without configuration. -/
theorem getBaseUrl_spec_witness :
    getBaseUrl (some "automed.adamtechnologies.in") (some "https://staging.example.test") =
      "https://python.adamtechnologies.in" ∧
    getBaseUrl (some "staging.example.test") (some "https://staging.example.test") =
      "https://staging.example.test" ∧
    getBaseUrl none (some "") = "http://localhost:8000" :=
  ⟨(getBaseUrl_spec _ _).1 rfl,
   (getBaseUrl_spec (some "staging.example.test") _).2.1 (by decide) _ rfl (by decide),
   (getBaseUrl_spec none (some "")).2.2 (by decide) (Or.inr rfl)⟩

/-! ## The question dialog -/

theorem handleQuestionerSuccess_result (s : HomeState) (response : Option AnalysisResponse) :
    ((∀ r, response = some r → r.status ≠ some "success") →
      (handleQuestionerSuccess s response).result = s.result) ∧
    (∀ r, response = some r → r.status = some "success" →
      (handleQuestionerSuccess s response).result = some r) := by
  constructor
  · intro h
    cases response with
    | none => rfl
    | some r =>
      have hr := h r rfl
      unfold handleQuestionerSuccess
      simp only [hr, if_false]
      split <;> rfl
  · intro r hresp hstatus
    rw [hresp]
    unfold handleQuestionerSuccess
    simp [hstatus]

/-- C12: when the answer submission comes back with status `error`, the message
of the response (or `Server returned an error` when it is empty) is shown,
`onClose` and the success callback are not called, and the page state, with its
result and selection, is as before; and `handleQuestionerSuccess` replaces the
result exactly for a response whose status is `success`. -/
theorem submitAnswers_soft_error (env : Env) (s : HomeState) (rid : String)
    (values : List (String × String)) (response : AnalysisResponse)
    (hrid : recordId s.result = some rid) (hne : rid ≠ "")
    (hresp : env.postAnswerQuestions rid values = .ok response)
    (hstatus : response.status = some "error") :
    submitAnswers env s (.ok values) =
      some (s, { loading := false,
                 toast := some (.error (orElse response.message "Server returned an error")),
                 formReset := false, submitSuccess := none, closed := false }) ∧
    (∀ (s2 : HomeState) (resp : Option AnalysisResponse),
      ((∀ r, resp = some r → r.status ≠ some "success") →
        (handleQuestionerSuccess s2 resp).result = s2.result ∧
        (handleQuestionerSuccess s2 resp).selectedCodes = s2.selectedCodes) ∧
      (∀ r, resp = some r → r.status = some "success" →
        (handleQuestionerSuccess s2 resp).result = some r)) := by
  constructor
  · unfold submitAnswers
    cases hres : s.result with
    | none => simp [recordId, hres] at hrid
    | some r =>
      rw [hres] at hrid
      simp only [hrid, orElse, hne, ne_eq, not_false_eq_true, if_true, Questioner.handleSubmit,
        if_false, submitQuestionAnswers, hresp, hstatus]
  · intro s2 resp
    exact ⟨fun h => ⟨(handleQuestionerSuccess_result s2 resp).1 h,
        handleQuestionerSuccess_selectedCodes s2 resp⟩,
      (handleQuestionerSuccess_result s2 resp).2⟩

/-- C12, on the open dialog of `questionsResult` and a soft error of the backend. -/
theorem submitAnswers_soft_error_witness :
    submitAnswers (answerEnv softErrorResponse) questionsState (.ok sampleAnswers) =
      some (questionsState,
        { loading := false, toast := some (.error "Could not process the answers"),
          formReset := false, submitSuccess := none, closed := false }) :=
  (submitAnswers_soft_error (answerEnv softErrorResponse) questionsState "rec-1" sampleAnswers
    softErrorResponse rfl (by decide) rfl rfl).1

/-! ## Failed requests -/

theorem append_ne_empty (a b : String) (h : a ≠ "") : a ++ b ≠ "" := by
  intro he
  apply h
  have h2 := congrArg String.data he
  simp only [String.data_append] at h2
  exact String.ext (List.append_eq_nil.1 h2).1

theorem orElse_rethrow (error : AxiosError) (noBody noMessage : String) (h : noBody ≠ "") :
    orElse (rethrow error noBody).message noMessage =
      Spec.failureText error noBody noMessage := by
  unfold rethrow Spec.failureText
  rcases error with ⟨response, msg⟩
  cases response with
  | none => simp [orElse, h]
  | some body =>
    cases body with
    | none => simp [orElse, h]
    | some b =>
      rcases b with ⟨m⟩
      cases m <;> simp [orElse]

theorem failureText_ne_empty (error : AxiosError) (noBody noMessage : String)
    (h1 : noBody ≠ "") (h2 : noMessage ≠ "") : Spec.failureText error noBody noMessage ≠ "" := by
  unfold Spec.failureText
  split
  · split
    · split <;> assumption
    · exact h2
  · exact h1

theorem handleSubmit_failure (env : Env) (s : HomeState) (error : AxiosError)
    (h : env.postAnalyze s.scenario = .error error) :
    handleSubmit env s =
      { s with
        loading := false, result := none,
        selectedCodes := { accepted := [], denied := [] },
        error := some (Spec.failureText error "Failed to analyze scenario"
          "An error occurred while analyzing the scenario") } := by
  unfold handleSubmit analyzeDentalScenario
  simp only [h]
  rw [orElse_rethrow error _ _ (by decide)]

theorem handleAddCode_failure (env : Env) (s : HomeState) (r : AnalysisResponse)
    (d : ResultData) (rid : String) (error : AxiosError)
    (hnew : trim s.newCode ≠ "") (hr : s.result = some r) (hd : r.data = some d)
    (hrid : d.record_id = some rid) (hne : rid ≠ "")
    (h : env.postAddCustomCode s.newCode s.scenario rid = .error error) :
    handleAddCode env s =
      { s with
        loading := false,
        error := some (Spec.failureText error "Failed to add custom code"
          "Failed to add custom code") } := by
  unfold handleAddCode addCustomCode
  simp only [hnew, hr, hd, hrid, hne, h, if_false]
  rw [orElse_rethrow error _ _ (by decide)]

theorem questioner_failure (env : Env) (rid : String) (values : List (String × String))
    (error : AxiosError) (hne : rid ≠ "")
    (h : env.postAnswerQuestions rid values = .error error) :
    Questioner.handleSubmit env rid (.ok values) =
      { loading := false,
        toast := some (.error (Spec.failureText error
          ("Failed to submit answers: " ++ orElse error.message "Unknown error")
          "Failed to submit answers")),
        formReset := false, submitSuccess := none, closed := false } := by
  unfold Questioner.handleSubmit submitQuestionAnswers Questioner.caught
  simp only [hne, h, if_false]
  rw [orElse_rethrow error _ _ (append_ne_empty _ _ (by decide))]

/-- C11: when the request of a network action fails, the handler ends with the
loading or submitting flag cleared and shows a non-empty text: the message of
the response body when there is a body with a non-empty message; otherwise, for
submit codes and add custom code, one fixed text; for analyze,
`Failed to analyze scenario` without a body and
`An error occurred while analyzing the scenario` with a body; for submit
answers, `Failed to submit answers` with a body and, without one,
`Failed to submit answers: ` followed by the message of the transport error or
`Unknown error`. -/
theorem network_failure_text (env : Env) (s : HomeState) (error : AxiosError) :
    (env.postAnalyze s.scenario = .error error →
      (handleSubmit env s).error =
        some (Spec.failureText error "Failed to analyze scenario"
          "An error occurred while analyzing the scenario") ∧
      (handleSubmit env s).loading = false) ∧
    (∀ r d, s.result = some r → r.data = some d →
      env.postStoreCodeStatus s.selectedCodes d.record_id = .error error →
      (handleSubmitCodes env s).error =
        some (Spec.failureText error "Failed to submit selected codes"
          "Failed to submit selected codes") ∧
      (handleSubmitCodes env s).submitting = false) ∧
    (∀ r d rid, trim s.newCode ≠ "" → s.result = some r → r.data = some d →
      d.record_id = some rid → rid ≠ "" →
      env.postAddCustomCode s.newCode s.scenario rid = .error error →
      (handleAddCode env s).error =
        some (Spec.failureText error "Failed to add custom code"
          "Failed to add custom code") ∧
      (handleAddCode env s).loading = false) ∧
    (∀ rid values, rid ≠ "" → env.postAnswerQuestions rid values = .error error →
      Questioner.handleSubmit env rid (.ok values) =
        { loading := false,
          toast := some (.error (Spec.failureText error
            ("Failed to submit answers: " ++ orElse error.message "Unknown error")
            "Failed to submit answers")),
          formReset := false, submitSuccess := none, closed := false }) ∧
    Spec.failureText error "Failed to analyze scenario"
      "An error occurred while analyzing the scenario" ≠ "" ∧
    Spec.failureText error "Failed to submit selected codes"
      "Failed to submit selected codes" ≠ "" ∧
    Spec.failureText error "Failed to add custom code" "Failed to add custom code" ≠ "" ∧
    Spec.failureText error
      ("Failed to submit answers: " ++ orElse error.message "Unknown error")
      "Failed to submit answers" ≠ "" := by
  refine ⟨?_, ?_, ?_, ?_, ?_, ?_, ?_, ?_⟩
  · intro h
    rw [handleSubmit_failure env s error h]
    exact ⟨rfl, rfl⟩
  · intro r d hr hd h
    unfold handleSubmitCodes submitSelectedCodes
    simp only [hr, hd, h]
    rw [orElse_rethrow error _ _ (by decide)]
    exact ⟨rfl, trivial⟩
  · intro r d rid hnew hr hd hrid hne h
    rw [handleAddCode_failure env s r d rid error hnew hr hd hrid hne h]
    exact ⟨rfl, rfl⟩
  · intro rid values hne h
    exact questioner_failure env rid values error hne h
  · exact failureText_ne_empty error _ _ (by decide) (by decide)
  · exact failureText_ne_empty error _ _ (by decide) (by decide)
  · exact failureText_ne_empty error _ _ (by decide) (by decide)
  · exact failureText_ne_empty error _ _ (append_ne_empty _ _ (by decide)) (by decide)

/-- C11, on an analyze request refused with a message in the body and on an
answer submission that times out. -/
theorem network_failure_text_witness :
    ((handleSubmit (failingEnv serverError) questionsState).error =
        some "Scenario is too short" ∧
      (handleSubmit (failingEnv serverError) questionsState).loading = false) ∧
    Questioner.handleSubmit (failingEnv timeoutError) "rec-1" (.ok sampleAnswers) =
      { loading := false,
        toast := some (.error "Failed to submit answers: timeout of 5000ms exceeded"),
        formReset := false, submitSuccess := none, closed := false } :=
  ⟨(network_failure_text (failingEnv serverError) questionsState serverError).1 rfl,
   (network_failure_text (failingEnv timeoutError) questionsState timeoutError).2.2.2.1
      "rec-1" sampleAnswers (by decide) rfl⟩

/-- C11, the claim as worded fails: without a message from the server the text
is not one fixed description per action. Two answer submissions that fail
without a response show two different texts, each quoting the transport error,
and the analyze action shows one text without a body and another with a body
that has no message. -/
theorem failure_text_not_fixed :
    networkError.response = none ∧ timeoutError.response = none ∧
    (Questioner.handleSubmit (failingEnv networkError) "rec-1" (.ok sampleAnswers)).toast =
      some (.error "Failed to submit answers: Network Error") ∧
    (Questioner.handleSubmit (failingEnv timeoutError) "rec-1" (.ok sampleAnswers)).toast =
      some (.error "Failed to submit answers: timeout of 5000ms exceeded") ∧
    (handleSubmit (failingEnv networkError) questionsState).error =
      some "Failed to analyze scenario" ∧
    (handleSubmit (failingEnv bareServerError) questionsState).error =
      some "An error occurred while analyzing the scenario" := by
  decide

/-! ## Follow-up requests and the record id -/

theorem handleAddCode_without_record_id (env : Env) (s : HomeState)
    (h : recordId s.result = none ∨ recordId s.result = some "") :
    handleAddCode env s = { s with error := some "Please enter a valid code" } ∨
    handleAddCode env s =
      { s with error := some "No active analysis session. Please analyze a scenario first." } := by
  unfold handleAddCode
  by_cases hnew : trim s.newCode = ""
  · left
    simp [hnew]
  · right
    simp only [hnew, if_false]
    cases hr : s.result with
    | none => rfl
    | some r =>
      cases hd : r.data with
      | none => simp [hd]
      | some d =>
        simp only [recordId, hr, hd] at h
        rcases h with h | h
        · simp [hd, h]
        · simp [hd, h]

theorem questioner_without_record_id (env : Env) (values : List (String × String)) :
    Questioner.handleSubmit env "" (.ok values) =
      { loading := false, toast := some (.error "Record ID is missing"),
        formReset := false, submitSuccess := none, closed := false } := by
  rfl

/-- C13, final submission: on a result without record id whose code is accepted,
so that the submit button is enabled, `handleSubmitCodes` consults the backend
with the missing record id; a backend that stores such a request makes the page
reset as after any successful submission, and no error is reported. -/
theorem handleSubmitCodes_sends_without_record_id :
    recordId noRecordIdState.result = none ∧
    areAllCodesSelected noRecordIdState.result noRecordIdState.selectedCodes = true ∧
    handleSubmitCodes storeWithoutRecordEnv noRecordIdState =
      { noRecordIdState with
        scenario := "", result := none, selectedCodes := { accepted := [], denied := [] } } ∧
    (handleSubmitCodes storeWithoutRecordEnv noRecordIdState).error = none := by
  decide

end TriageStore
